import Mathlib

/-!
# WordLang interpreter: a shallow embedding in Lean 4

This file embeds the WordLang interpreter (packages `token`, `lexer`,
`parser`, `ast`, `object`, `interpreter` of the Go sources) as executable
Lean definitions, and proves or refutes the specification claims about it.

Modelling conventions, stated once here:

* Go `int64` is modelled as `Int`.  No claim under study exercises 64-bit
  wrap-around, and the divisions involved are modelled with `Int.tdiv`,
  which truncates toward zero exactly as Go's `/` on integers does.
* Go `float64` is modelled by `F64`, an exact fraction `fnum / fden`
  (`fden > 0` by construction in every operation).  Arithmetic and
  comparisons are the exact rational operations; `strconv.ParseFloat` is
  modelled as exact decimal parsing and `fmt.Sprintf("%f", ·)` as exact
  rounding to six decimals.  This idealisation is faithful on every value
  appearing in the claims; no claim depends on binary rounding of doubles.
* A Go function that panics (failed type assertion, method call on a nil
  interface) is modelled by the `none` of an `Option` result, or by the
  `.panicked` outcome of the evaluator.
* Go's `nil` interface value `object.Object` (which the evaluator produces
  for an empty block and an empty program) is modelled as the `none` of
  `Option Obj`; an `Obj` itself is always a non-nil object.
* The pointer equality `left == right` that `evalEqualsInfixExpression`
  falls back to is heap-dependent; it is abstracted as a parameter
  `ptrEq : Obj → Obj → Bool`.  Go guarantees that interface values of
  different dynamic types are never `==`, which enters the theorems as the
  hypothesis `ptrEq a b = false` whenever `kind a ≠ kind b`.
-/

/-- Exact-fraction model of Go `float64` (see the header comment).
`fden` is kept positive by every constructor below. -/
structure F64 where
  fnum : Int
  fden : Int
deriving DecidableEq, Repr

/-- Widening conversion `float64(i)` of an integer. -/
def F64.fromInt (n : Int) : F64 := ⟨n, 1⟩

/-- Go `+` on float64, as the exact rational sum. -/
def F64.add (a b : F64) : F64 := ⟨a.fnum * b.fden + b.fnum * a.fden, a.fden * b.fden⟩

/-- Go `-` on float64. -/
def F64.sub (a b : F64) : F64 := ⟨a.fnum * b.fden - b.fnum * a.fden, a.fden * b.fden⟩

/-- Go `*` on float64. -/
def F64.mul (a b : F64) : F64 := ⟨a.fnum * b.fnum, a.fden * b.fden⟩

/-- Go `/` on float64 (only reached with a non-zero divisor: the
interpreter's zero check precedes every division). -/
def F64.div (a b : F64) : F64 :=
  let n := a.fnum * b.fden
  let d := a.fden * b.fnum
  if d < 0 then ⟨-n, -d⟩ else ⟨n, d⟩

/-- Go `==` on float64: value equality of the fractions. -/
def F64.beq (a b : F64) : Bool := a.fnum * b.fden == b.fnum * a.fden

/-- Go `<` on float64. -/
def F64.blt (a b : F64) : Bool := decide (a.fnum * b.fden < b.fnum * a.fden)

/-- Go `<=` on float64. -/
def F64.ble (a b : F64) : Bool := decide (a.fnum * b.fden ≤ b.fnum * a.fden)

/-- Whether the float is exactly zero (the divisor check in `divide`). -/
def F64.isZero (a : F64) : Bool := a.fnum == 0

/-- Truncation toward zero, Go's `int64(f)` conversion. -/
def F64.trunc (a : F64) : Int := Int.tdiv a.fnum a.fden

/-- Pad a natural number with leading zeros to six digits (the fractional
part of `%f`). -/
def natPad6 (n : Nat) : String :=
  let s := toString n
  String.mk (List.replicate (6 - s.toList.length) '0') ++ s

/-- `fmt.Sprintf("%f", a)`: fixed six-decimal rendering used by
`object.Float.Inspect`. -/
def F64.format (a : F64) : String :=
  let n := a.fnum.natAbs
  let d := a.fden.natAbs
  let scaled := (n * 1000000 * 2 + d) / (2 * d)
  let core := toString (scaled / 1000000) ++ "." ++ natPad6 (scaled % 1000000)
  if a.fnum < 0 then "-" ++ core else core

/-- The runtime value model of `object.Object`: the closed set of concrete
types implementing the interface (`object/object.go`). -/
inductive Obj where
  | intV (v : Int)
  | floatV (v : F64)
  | strV (s : String)
  | boolV (b : Bool)
  | nullV
  | listV (elems : List Obj)
  | returnV (v : Obj)
  | errorV (msg : String)

/-- `Object.Type()`: the `ObjectType` string constants of `object.go`. -/
def objTypeStr : Obj → String
  | .intV _ => "INTEGER"
  | .floatV _ => "FLOAT"
  | .strV _ => "STRING"
  | .boolV _ => "BOOLEAN"
  | .nullV => "NULL"
  | .listV _ => "LIST"
  | .returnV _ => "RETURN_VALUE"
  | .errorV _ => "ERROR"

/-- The dynamic-type tag used to compare kinds in theorem statements. -/
inductive ObjKind where
  | kInt | kFloat | kStr | kBool | kNull | kList | kReturn | kError
deriving DecidableEq, Repr

/-- Dynamic type of an object (same classification as `objTypeStr`). -/
def Obj.kind : Obj → ObjKind
  | .intV _ => .kInt
  | .floatV _ => .kFloat
  | .strV _ => .kStr
  | .boolV _ => .kBool
  | .nullV => .kNull
  | .listV _ => .kList
  | .returnV _ => .kReturn
  | .errorV _ => .kError

/-- `strings.Join(xs, ", ")` as used by `object.List.Inspect`. -/
def goJoinComma : List String → String
  | [] => ""
  | [s] => s
  | s :: rest => s ++ ", " ++ goJoinComma rest

mutual

/-- `Object.Inspect()` of `object/object.go`: integers via `%d`, floats via
`%f`, booleans via `%t`, strings verbatim, null as `null`, lists as
`[e, e, ...]`, errors as `ERROR: msg`, return values transparently. -/
def inspect : Obj → String
  | .intV v => toString v
  | .floatV f => f.format
  | .strV s => s
  | .boolV b => if b then "true" else "false"
  | .nullV => "null"
  | .listV elems => "[" ++ goJoinComma (inspectList elems) ++ "]"
  | .returnV v => inspect v
  | .errorV m => "ERROR: " ++ m

/-- `Inspect` mapped over list elements. -/
def inspectList : List Obj → List String
  | [] => []
  | o :: rest => inspect o :: inspectList rest

end

/-- `isError` of the interpreter, on a possibly-nil object
(`isError(nil)` is `false` in Go). -/
def isErrorO : Option Obj → Bool
  | some (.errorV _) => true
  | _ => false

/-- `isError` on a known non-nil object. -/
def isError : Obj → Bool
  | .errorV _ => true
  | _ => false

/-- `nativeBoolToBooleanObject`: Go returns the shared `TRUE`/`FALSE`
singletons, modelled structurally. -/
def nativeBoolToBooleanObject (b : Bool) : Obj := .boolV b

/-- `isTruthy` of the interpreter: the `switch` compares against the
`NULL`/`TRUE`/`FALSE` singletons (the only null and boolean objects the
evaluator ever creates), everything else falls to the truthy default. -/
def isTruthy : Obj → Bool
  | .nullV => false
  | .boolV b => b
  | _ => true

/-- `isTruthy` on a possibly-nil object: Go's `switch` sends a nil
interface to the (truthy) default branch. -/
def isTruthyO : Option Obj → Bool
  | none => true
  | some v => isTruthy v

/-- `evalNotOperatorExpression`: `switch` on the singletons; `not null`
is true and every non-boolean, non-null value maps to false. -/
def evalNotOperatorExpression : Obj → Obj
  | .boolV true => .boolV false
  | .boolV false => .boolV true
  | .nullV => .boolV true
  | _ => .boolV false

/-- The `Eval: Type mismatch for '%s' operator: %s %s %s` message. -/
def typeMismatchMsg (operator : String) (left right : Obj) : String :=
  "Eval: Type mismatch for '" ++ operator ++ "' operator: " ++
    objTypeStr left ++ " " ++ operator ++ " " ++ objTypeStr right

/-- `evalAddInfixExpression`: int+int, float+float, mixed widening,
string concatenation, otherwise a type-mismatch error. -/
def evalAddInfixExpression (operator : String) (left right : Obj) : Obj :=
  match left, right with
  | .intV l, .intV r => .intV (l + r)
  | .floatV l, .floatV r => .floatV (l.add r)
  | .floatV l, .intV r => .floatV (l.add (F64.fromInt r))
  | .intV l, .floatV r => .floatV ((F64.fromInt l).add r)
  | .strV l, .strV r => .strV (l ++ r)
  | _, _ => .errorV (typeMismatchMsg operator left right)

/-- `evalSubtractInfixExpression`. -/
def evalSubtractInfixExpression (operator : String) (left right : Obj) : Obj :=
  match left, right with
  | .intV l, .intV r => .intV (l - r)
  | .floatV l, .floatV r => .floatV (l.sub r)
  | .floatV l, .intV r => .floatV (l.sub (F64.fromInt r))
  | .intV l, .floatV r => .floatV ((F64.fromInt l).sub r)
  | _, _ => .errorV (typeMismatchMsg operator left right)

/-- `evalMultiplyInfixExpression`. -/
def evalMultiplyInfixExpression (operator : String) (left right : Obj) : Obj :=
  match left, right with
  | .intV l, .intV r => .intV (l * r)
  | .floatV l, .floatV r => .floatV (l.mul r)
  | .floatV l, .intV r => .floatV (l.mul (F64.fromInt r))
  | .intV l, .floatV r => .floatV ((F64.fromInt l).mul r)
  | _, _ => .errorV (typeMismatchMsg operator left right)

/-- The divisor zero check opening `evalDivideInfixExpression`, with Go's
left-to-right evaluation of
`right.(*object.Integer).Value == 0 && right.Type() == object.INTEGER_OBJ ||
 right.(*object.Float).Value == 0 && right.Type() == object.FLOAT_OBJ`.
The unchecked assertion `right.(*object.Integer)` is evaluated first and
panics (`none`) unless `right` is an Integer; when `right` is a non-zero
Integer the `||` falls through to `right.(*object.Float)`, which then
panics.  Only an Integer divisor of exactly 0 survives the check. -/
def divideZeroCheck (right : Obj) : Option Bool :=
  match right with
  | .intV rv =>
    if rv == 0 && objTypeStr right == "INTEGER" then some true
    else none
  | _ => none

/-- `evalDivideInfixExpression`; `none` is a Go panic in the zero check,
the division branches below the check mirror the source but are reachable
only for an Integer divisor of 0 (which returns the error first). -/
def evalDivideInfixExpression (operator : String) (left right : Obj) : Option Obj :=
  match divideZeroCheck right with
  | none => none
  | some true => some (.errorV "Eval: Division by zero error")
  | some false =>
    match left, right with
    | .intV l, .intV r => some (.intV (Int.tdiv l r))
    | .floatV l, .floatV r => some (.floatV (l.div r))
    | .floatV l, .intV r => some (.floatV (l.div (F64.fromInt r)))
    | .intV l, .floatV r => some (.floatV ((F64.fromInt l).div r))
    | _, _ => some (.errorV (typeMismatchMsg operator left right))

/-- `evalEqualsInfixExpression`: the six structural branches in source
order, then the Go interface comparison `left == right`, abstracted as
`ptrEq` (see the header comment). -/
def evalEqualsInfixExpression (ptrEq : Obj → Obj → Bool) (left right : Obj) : Obj :=
  match left, right with
  | .intV l, .intV r => nativeBoolToBooleanObject (l == r)
  | .floatV l, .floatV r => nativeBoolToBooleanObject (l.beq r)
  | .floatV l, .intV r => nativeBoolToBooleanObject (l.beq (F64.fromInt r))
  | .intV l, .floatV r => nativeBoolToBooleanObject ((F64.fromInt l).beq r)
  | .strV l, .strV r => nativeBoolToBooleanObject (l == r)
  | .boolV l, .boolV r => nativeBoolToBooleanObject (l == r)
  | _, _ => nativeBoolToBooleanObject (ptrEq left right)

/-- `evalNotEqualsInfixExpression`: reuses `equals`, then inverts the
resulting boolean with `evalNotOperatorExpression`. -/
def evalNotEqualsInfixExpression (ptrEq : Obj → Obj → Bool) (left right : Obj) : Obj :=
  let equalsResult := evalEqualsInfixExpression ptrEq left right
  if isError equalsResult then equalsResult
  else evalNotOperatorExpression equalsResult

/-- `evalGreaterThanInfixExpression`. -/
def evalGreaterThanInfixExpression (operator : String) (left right : Obj) : Obj :=
  match left, right with
  | .intV l, .intV r => nativeBoolToBooleanObject (decide (l > r))
  | .floatV l, .floatV r => nativeBoolToBooleanObject (r.blt l)
  | .floatV l, .intV r => nativeBoolToBooleanObject ((F64.fromInt r).blt l)
  | .intV l, .floatV r => nativeBoolToBooleanObject (r.blt (F64.fromInt l))
  | _, _ => .errorV (typeMismatchMsg operator left right)

/-- `evalLessThanInfixExpression`. -/
def evalLessThanInfixExpression (operator : String) (left right : Obj) : Obj :=
  match left, right with
  | .intV l, .intV r => nativeBoolToBooleanObject (decide (l < r))
  | .floatV l, .floatV r => nativeBoolToBooleanObject (l.blt r)
  | .floatV l, .intV r => nativeBoolToBooleanObject (l.blt (F64.fromInt r))
  | .intV l, .floatV r => nativeBoolToBooleanObject ((F64.fromInt l).blt r)
  | _, _ => .errorV (typeMismatchMsg operator left right)

/-- `evalGreaterOrEqualInfixExpression`. -/
def evalGreaterOrEqualInfixExpression (operator : String) (left right : Obj) : Obj :=
  match left, right with
  | .intV l, .intV r => nativeBoolToBooleanObject (decide (l ≥ r))
  | .floatV l, .floatV r => nativeBoolToBooleanObject (r.ble l)
  | .floatV l, .intV r => nativeBoolToBooleanObject ((F64.fromInt r).ble l)
  | .intV l, .floatV r => nativeBoolToBooleanObject (r.ble (F64.fromInt l))
  | _, _ => .errorV (typeMismatchMsg operator left right)

/-- `evalLessOrEqualInfixExpression`. -/
def evalLessOrEqualInfixExpression (operator : String) (left right : Obj) : Obj :=
  match left, right with
  | .intV l, .intV r => nativeBoolToBooleanObject (decide (l ≤ r))
  | .floatV l, .floatV r => nativeBoolToBooleanObject (l.ble r)
  | .floatV l, .intV r => nativeBoolToBooleanObject (l.ble (F64.fromInt r))
  | .intV l, .floatV r => nativeBoolToBooleanObject ((F64.fromInt l).ble r)
  | _, _ => .errorV (typeMismatchMsg operator left right)

/-- `evalAndInfixExpression`: truthiness of both operands (operands may be
Go-nil in principle, and `isTruthy` accepts nil, hence `Option`). -/
def evalAndInfixExpression (left right : Option Obj) : Obj :=
  nativeBoolToBooleanObject (isTruthyO left && isTruthyO right)

/-- `evalOrInfixExpression`. -/
def evalOrInfixExpression (left right : Option Obj) : Obj :=
  nativeBoolToBooleanObject (isTruthyO left || isTruthyO right)

/-! ## The AST (`ast/ast.go`)

Expression-valued struct fields that the parser may leave as Go `nil`
(`parseExpression` returns `nil` on failure) are modelled as
`Option Expr`.  A `BlockStatement` is modelled by its statement list. -/

mutual

/-- The `ast.Expression` variants. -/
inductive Expr where
  | ident (name : String)
  | intLit (v : Int)
  | floatLit (v : F64)
  | strLit (s : String)
  | boolLit (b : Bool)
  | prefixE (op : String) (right : Option Expr)
  | infixE (op : String) (left : Option Expr) (right : Option Expr)
  | listLit (elems : List (Option Expr))
  | getItemAtIndex (lst : Option Expr) (idx : Option Expr)
  | isDefinedE (name : String)
  | convertToNumber (e : Option Expr)
  | convertToString (e : Option Expr)
  | funcLit (params : List String) (body : List Stmt)
  | callE (fn : Option Expr) (args : List (Option Expr))

/-- The `ast.Statement` variants. -/
inductive Stmt where
  | letS (name : String) (value : Option Expr)
  | returnS (value : Option Expr)
  | exprS (e : Option Expr)
  | ifS (cond : Option Expr) (thenB : List Stmt)
      (elifs : List (Option Expr × List Stmt)) (elseB : Option (List Stmt))
  | whileS (cond : Option Expr) (body : List Stmt)
  | forEachS (varName : String) (iterable : Option Expr) (body : List Stmt)
  | printS (value : Option Expr)
  | inputS (prompt : Option String)
  | exitS (code : Option Expr)

end

/-- The `ast.Node` values `Eval` dispatches on (program, block, statement
or expression). -/
inductive Node where
  | prog (stmts : List Stmt)
  | block (stmts : List Stmt)
  | stmt (s : Stmt)
  | expr (e : Expr)

/-! ## Environment and evaluator state (`interpreter`) -/

/-- One environment frame: the `store` map of `Environment`, as an
association list with in-place overwrite (`Set` semantics of a Go map). -/
abbrev Frame := List (String × Obj)

/-- The chain of frames, innermost first (`store` plus the `outer`
pointers). -/
abbrev Env := List Frame

/-- Go map write `e.store[name] = val`. -/
def frameSet : Frame → String → Obj → Frame
  | [], k, v => [(k, v)]
  | (k', v') :: rest, k, v =>
    if k' == k then (k, v) :: rest else (k', v') :: frameSet rest k v

/-- Go map read. -/
def frameGet : Frame → String → Option Obj
  | [], _ => none
  | (k', v') :: rest, k => if k' == k then some v' else frameGet rest k

/-- `Environment.Get`: local frame first, then the outer chain. -/
def envGet : Env → String → Option Obj
  | [], _ => none
  | f :: rest, k =>
    match frameGet f k with
    | some v => some v
    | none => envGet rest k

/-- `Environment.Set`: always writes the local (innermost) frame. -/
def envSet : Env → String → Obj → Env
  | [], k, v => [[(k, v)]]
  | f :: rest, k, v => frameSet f k v :: rest

/-- Evaluator state: the environment chain plus the output and input
collaborators (each `out` entry is one `fmt` write; `Println` entries end
in a newline, `Print` prompts do not; each `inp` entry is one `Scanln`
read). -/
structure St where
  env : Env
  out : List String
  inp : List String

/-- Outcome of one `Eval` call.  `ok` carries the (possibly Go-nil)
result object and the state; `exited` models `os.Exit`; `panicked` a Go
runtime panic; `nofuel` means the step budget of the model ran out. -/
inductive EvalRes where
  | ok (v : Option Obj) (st : St)
  | exited (code : Int) (st : St)
  | panicked
  | nofuel

/-- The `Eval: Node type not handled: %T` error for a nil `ast.Node`. -/
def errNilNode : Obj := .errorV "Eval: Node type not handled: <nil>"

/-- Evaluate an optional (possibly Go-nil) expression: `Eval` on a nil
node falls to the default case and reports it unhandled. -/
def evalOExpr (evalF : Node → St → EvalRes) (oe : Option Expr) (st : St) : EvalRes :=
  match oe with
  | none => .ok (some errNilNode) st
  | some e => evalF (.expr e) st

/-- `evalProgram`: run statements in order, unwrap a `ReturnValue` to its
payload, stop at the first `Error`; the accumulator starts as Go-nil. -/
def evalProgramGo (evalF : Node → St → EvalRes) :
    List Stmt → Option Obj → St → EvalRes
  | [], result, st => .ok result st
  | s :: rest, _, st =>
    match evalF (.stmt s) st with
    | .ok r st' =>
      match r with
      | some (.returnV v) => .ok (some v) st'
      | some (.errorV m) => .ok (some (.errorV m)) st'
      | _ => evalProgramGo evalF rest r st'
    | other => other

/-- `evalBlockStatement`: like `evalProgram` but returns a `ReturnValue`
or `Error` unchanged for the enclosing construct to see. -/
def evalBlockGo (evalF : Node → St → EvalRes) :
    List Stmt → Option Obj → St → EvalRes
  | [], result, st => .ok result st
  | s :: rest, _, st =>
    match evalF (.stmt s) st with
    | .ok r st' =>
      match r with
      | some (.returnV v) => .ok (some (.returnV v)) st'
      | some (.errorV m) => .ok (some (.errorV m)) st'
      | _ => evalBlockGo evalF rest r st'
    | other => other

/-- Result of `evalExpressions`: the value list (a singleton error list on
the first error, exactly as the source returns `[]Object{err}`). -/
inductive ExprsRes where
  | ok (vs : List Obj) (st : St)
  | exited (code : Int) (st : St)
  | panicked
  | nofuel

/-- `evalExpressions`: left to right, stop at the first error.  An
expression never evaluates to Go-nil; appending a nil result is
unreachable and modelled as a panic. -/
def evalExpressionsGo (evalF : Node → St → EvalRes) :
    List (Option Expr) → St → ExprsRes
  | [], st => .ok [] st
  | oe :: rest, st =>
    match evalOExpr evalF oe st with
    | .ok r st' =>
      if isErrorO r then
        match r with
        | some e => .ok [e] st'
        | none => .panicked
      else
        match r with
        | some v =>
          (match evalExpressionsGo evalF rest st' with
           | .ok vs st'' => .ok (v :: vs) st''
           | .exited c s => .exited c s
           | .panicked => .panicked
           | .nofuel => .nofuel)
        | none => .panicked
    | .exited c s => .exited c s
    | .panicked => .panicked
    | .nofuel => .nofuel

/-- `evalWhileStatement`'s loop, with its own iteration budget: evaluate
the condition, stop when falsy, run the body, pass a `ReturnValue` or an
`Error` out unchanged, remember the body value. -/
def whileLoopGo (evalF : Node → St → EvalRes) :
    Nat → Option Expr → List Stmt → Option Obj → St → EvalRes
  | 0, _, _, _, _ => .nofuel
  | k + 1, cond, body, result, st =>
    match evalOExpr evalF cond st with
    | .ok c st1 =>
      if isErrorO c then .ok c st1
      else if isTruthyO c then
        match evalF (.block body) st1 with
        | .ok br st2 =>
          match br with
          | some (.returnV v) => .ok (some (.returnV v)) st2
          | some (.errorV m) => .ok (some (.errorV m)) st2
          | _ => whileLoopGo evalF k cond body br st2
        | other => other
      else .ok result st1
    | other => other

/-- `evalForEachStatement`'s loop over the list elements: each iteration
creates a fresh enclosed environment (`NewEnclosedEnvironment(env)`) whose
single binding is the loop variable set to the element, runs the body
there, and passes a `ReturnValue` or `Error` out unchanged.  The child
frame is dropped again after the body (the Go code simply keeps using its
own `env` pointer). -/
def forEachLoopGo (evalF : Node → St → EvalRes) (varName : String)
    (body : List Stmt) : List Obj → Option Obj → St → EvalRes
  | [], result, st => .ok result st
  | e :: rest, _, st =>
    match evalF (.block body) { st with env := [(varName, e)] :: st.env } with
    | .ok br st2 =>
      match br with
      | some (.returnV v) => .ok (some (.returnV v)) { st2 with env := st2.env.tail }
      | some (.errorV m) => .ok (some (.errorV m)) { st2 with env := st2.env.tail }
      | _ => forEachLoopGo evalF varName body rest br { st2 with env := st2.env.tail }
    | other => other

/-- The `elseif` scan of `evalIfStatement`, ending in the optional `else`
block or `NULL`. -/
def elseIfLoopGo (evalF : Node → St → EvalRes) :
    List (Option Expr × List Stmt) → Option (List Stmt) → St → EvalRes
  | [], elseB, st =>
    match elseB with
    | some b => evalF (.block b) st
    | none => .ok (some .nullV) st
  | (c, b) :: rest, elseB, st =>
    match evalOExpr evalF c st with
    | .ok cv st1 =>
      if isErrorO cv then .ok cv st1
      else if isTruthyO cv then evalF (.block b) st1
      else elseIfLoopGo evalF rest elseB st1
    | other => other

/-- Lift a binary operand function over possibly-nil operands: a Go-nil
operand is unreachable (expressions never evaluate to nil) and would make
the `Type()` calls of every arithmetic/comparison helper panic. -/
def lift2E (st : St) (f : Obj → Obj → Obj) : Option Obj → Option Obj → EvalRes
  | some l, some r => .ok (some (f l r)) st
  | _, _ => .panicked

/-- The `switch ie.Operator` dispatch of `evalInfixExpression` (operand
evaluation and error checks happen in the caller). -/
def evalInfixDispatch (ptrEq : Obj → Obj → Bool) (op : String)
    (l r : Option Obj) (st : St) : EvalRes :=
  match op with
  | "add" => lift2E st (evalAddInfixExpression op) l r
  | "subtract" => lift2E st (evalSubtractInfixExpression op) l r
  | "multiply" => lift2E st (evalMultiplyInfixExpression op) l r
  | "divide" =>
    match l, r with
    | some lv, some rv =>
      (match evalDivideInfixExpression op lv rv with
       | some v => .ok (some v) st
       | none => .panicked)
    | _, _ => .panicked
  | "equals" => lift2E st (evalEqualsInfixExpression ptrEq) l r
  | "notequals" => lift2E st (evalNotEqualsInfixExpression ptrEq) l r
  | "greater" => lift2E st (evalGreaterThanInfixExpression op) l r
  | "less" => lift2E st (evalLessThanInfixExpression op) l r
  | "greater or equal" => lift2E st (evalGreaterOrEqualInfixExpression op) l r
  | "less or equal" => lift2E st (evalLessOrEqualInfixExpression op) l r
  | "and" => .ok (some (evalAndInfixExpression l r)) st
  | "or" => .ok (some (evalOrInfixExpression l r)) st
  | _ =>
    match l, r with
    | some lv, some rv =>
      .ok (some (.errorV ("Eval: Unknown infix operator: " ++ objTypeStr lv ++
        " " ++ op ++ " " ++ objTypeStr rv))) st
    | _, _ => .panicked

/-- `evalNotOperatorExpression` applied to a possibly-nil operand (a nil
falls to the `default` branch, i.e. `FALSE`). -/
def evalNotOperatorExpressionO : Option Obj → Obj
  | none => .boolV false
  | some v => evalNotOperatorExpression v

/-- The Go `%q` quoting of the simple strings appearing in diagnostics
(no escape-worthy characters occur in number or identifier literals). -/
def goQuote (s : String) : String := "\"" ++ s ++ "\""

/-- The text of the `strconv.ParseFloat` syntax error. -/
def goParseFloatErrMsg (s : String) : String :=
  "strconv.ParseFloat: parsing " ++ goQuote s ++ ": invalid syntax"

/-- Scan a maximal run of decimal digits: value, digit count, rest. -/
def goDigits : Nat → Nat → List Char → Nat × Nat × List Char
  | acc, count, [] => (acc, count, [])
  | acc, count, c :: rest =>
    if c.isDigit then goDigits (acc * 10 + (c.toNat - 48)) (count + 1) rest
    else (acc, count, c :: rest)

/-- `strconv.ParseFloat(s, 64)`, modelled as exact decimal parsing:
optional sign, mantissa digits with an optional single dot, optional
decimal exponent.  (Go additionally accepts `Inf`/`NaN`, hexadecimal
floats and digit-group underscores, and rounds to the nearest double;
none of those forms or distinctions occur in the claims.) -/
def goParseFloatCore (cs : List Char) : Option F64 :=
  let signRest : Bool × List Char :=
    match cs with
    | '+' :: r => (false, r)
    | '-' :: r => (true, r)
    | _ => (false, cs)
  let neg := signRest.1
  let (ip, ipn, cs2) := goDigits 0 0 signRest.2
  let (fp, fpn, cs3) :=
    match cs2 with
    | '.' :: r => goDigits 0 0 r
    | _ => (0, 0, cs2)
  if ipn == 0 && fpn == 0 then none
  else
    let mantNum : Int := (ip * 10 ^ fpn + fp : Nat)
    let mantDen : Int := (10 ^ fpn : Nat)
    match cs3 with
    | [] => some ⟨if neg then -mantNum else mantNum, mantDen⟩
    | e :: r =>
      if e == 'e' || e == 'E' then
        let esignRest : Bool × List Char :=
          match r with
          | '+' :: rr => (false, rr)
          | '-' :: rr => (true, rr)
          | _ => (false, r)
        let (ev, evn, r2) := goDigits 0 0 esignRest.2
        if evn == 0 || !r2.isEmpty then none
        else if esignRest.1 then
          some ⟨if neg then -mantNum else mantNum, mantDen * (10 ^ ev : Nat)⟩
        else
          some ⟨(if neg then -mantNum else mantNum) * (10 ^ ev : Nat), mantDen⟩
      else none

/-- `strconv.ParseFloat` on a string. -/
def goParseFloat (s : String) : Option F64 := goParseFloatCore s.toList

/-- `strings.Contains(s, ".")`. -/
def goContainsDot (s : String) : Bool := s.toList.contains '.'

/-- The full tree-walking evaluator `Eval(node, env)` of the
`interpreter` package, with a step budget (`fuel`) to make the recursion
through `while` loops structural.  `ptrEq` abstracts Go interface
pointer comparison (used only by `equals`/`notequals`).  Every case
mirrors the corresponding `eval...` function of the source; `FunctionLiteral`
and `CallExpression` have no case in the source `switch` and fall to the
default `Node type not handled` error. -/
def Eval (ptrEq : Obj → Obj → Bool) : Nat → Node → St → EvalRes
  | 0, _, _ => .nofuel
  | fuel + 1, node, st =>
    match node with
    | .prog stmts => evalProgramGo (Eval ptrEq fuel) stmts none st
    | .block stmts => evalBlockGo (Eval ptrEq fuel) stmts none st
    | .stmt s =>
      match s with
      | .exprS e => evalOExpr (Eval ptrEq fuel) e st
      | .letS name value =>
        (match evalOExpr (Eval ptrEq fuel) value st with
         | .ok v st1 =>
           if isErrorO v then .ok v st1
           else
             (match v with
              | some vv => .ok (some vv) { st1 with env := envSet st1.env name vv }
              -- unreachable: expressions never evaluate to Go-nil (Go would
              -- store the nil in the map and return it)
              | none => .ok none st1)
         | other => other)
      | .returnS value =>
        (match evalOExpr (Eval ptrEq fuel) value st with
         | .ok v st1 =>
           if isErrorO v then .ok v st1
           else
             (match v with
              | some vv => .ok (some (.returnV vv)) st1
              -- unreachable: expressions never evaluate to Go-nil (Go would
              -- wrap the nil; any later Inspect of it panics)
              | none => .panicked)
         | other => other)
      | .ifS cond thenB elifs elseB =>
        (match evalOExpr (Eval ptrEq fuel) cond st with
         | .ok c st1 =>
           if isErrorO c then .ok c st1
           else if isTruthyO c then Eval ptrEq fuel (.block thenB) st1
           else elseIfLoopGo (Eval ptrEq fuel) elifs elseB st1
         | other => other)
      | .whileS cond body =>
        whileLoopGo (Eval ptrEq fuel) fuel cond body (some .nullV) st
      | .forEachS varName iterable body =>
        (match evalOExpr (Eval ptrEq fuel) iterable st with
         | .ok iv st1 =>
           if isErrorO iv then .ok iv st1
           else
             (match iv with
              | some (.listV elems) =>
                forEachLoopGo (Eval ptrEq fuel) varName body elems (some .nullV) st1
              | some v =>
                .ok (some (.errorV ("Eval: 'for each' loop requires a list as iterable, got "
                  ++ objTypeStr v))) st1
              | none => .panicked)
         | other => other)
      | .printS value =>
        (match evalOExpr (Eval ptrEq fuel) value st with
         | .ok v st1 =>
           if isErrorO v then .ok v st1
           else
             (match v with
              | some vv => .ok (some .nullV) { st1 with out := st1.out ++ [inspect vv ++ "\n"] }
              | none => .panicked)
         | other => other)
      | .inputS prompt =>
        let st1 := match prompt with
          | some p => { st with out := st.out ++ [p] }
          | none => st
        (match st1.inp with
         | [] => .ok (some (.strV "")) st1
         | line :: rest => .ok (some (.strV line)) { st1 with inp := rest })
      | .exitS code =>
        (match code with
         | none => .exited 0 st
         | some ce =>
           (match Eval ptrEq fuel (.expr ce) st with
            | .ok co st1 =>
              (match co with
               | some (.errorV m) =>
                 .exited 1 { st1 with out := st1.out ++ [inspect (.errorV m) ++ "\n"] }
               | some (.intV n) => .exited n st1
               | some v =>
                 .exited 1 { st1 with out := st1.out ++
                   [inspect (.errorV ("Eval: Exit code must be an integer, got "
                     ++ objTypeStr v)) ++ "\n"] }
               | none => .panicked)
            | other => other))
    | .expr e =>
      match e with
      | .intLit v => .ok (some (.intV v)) st
      | .floatLit v => .ok (some (.floatV v)) st
      | .strLit s => .ok (some (.strV s)) st
      | .boolLit b => .ok (some (nativeBoolToBooleanObject b)) st
      | .ident name =>
        (match envGet st.env name with
         | some v => .ok (some v) st
         | none => .ok (some (.errorV ("Eval: Identifier not found: " ++ name))) st)
      | .prefixE op right =>
        (match evalOExpr (Eval ptrEq fuel) right st with
         | .ok r st1 =>
           if isErrorO r then .ok r st1
           else if op == "not" then .ok (some (evalNotOperatorExpressionO r)) st1
           else
             (match r with
              | some rv =>
                .ok (some (.errorV ("Eval: Unknown prefix operator: " ++ op
                  ++ objTypeStr rv))) st1
              | none => .panicked)
         | other => other)
      | .infixE op left right =>
        (match evalOExpr (Eval ptrEq fuel) left st with
         | .ok l st1 =>
           if isErrorO l then .ok l st1
           else
             (match evalOExpr (Eval ptrEq fuel) right st1 with
              | .ok r st2 =>
                if isErrorO r then .ok r st2
                else evalInfixDispatch ptrEq op l r st2
              | other => other)
         | other => other)
      | .listLit elems =>
        (match evalExpressionsGo (Eval ptrEq fuel) elems st with
         | .ok vs st1 =>
           (match vs with
            | v :: _ => if isError v then .ok (some v) st1 else .ok (some (.listV vs)) st1
            | [] => .ok (some (.listV [])) st1)
         | .exited c s => .exited c s
         | .panicked => .panicked
         | .nofuel => .nofuel)
      | .getItemAtIndex lst idx =>
        (match evalOExpr (Eval ptrEq fuel) lst st with
         | .ok lo st1 =>
           if isErrorO lo then .ok lo st1
           else
             (match lo with
              | some (.listV elems) =>
                (match evalOExpr (Eval ptrEq fuel) idx st1 with
                 | .ok io st2 =>
                   if isErrorO io then .ok io st2
                   else
                     (match io with
                      | some (.intV i) =>
                        if i < 0 || i ≥ (elems.length : Int) then
                          .ok (some (.errorV ("Eval: Index out of bounds: " ++ toString i
                            ++ ", list length: " ++ toString elems.length))) st2
                        else .ok (some (elems.getD i.toNat .nullV)) st2
                      | some v =>
                        .ok (some (.errorV ("Eval: 'get item at index' index must be a number, got "
                          ++ objTypeStr v))) st2
                      | none => .panicked)
                 | other => other)
              | some v =>
                .ok (some (.errorV ("Eval: 'get item at index' expected a list, got "
                  ++ objTypeStr v))) st1
              | none => .panicked)
         | other => other)
      | .isDefinedE name =>
        .ok (some (nativeBoolToBooleanObject (envGet st.env name).isSome)) st
      | .convertToNumber inner =>
        (match evalOExpr (Eval ptrEq fuel) inner st with
         | .ok v st1 =>
           if isErrorO v then .ok v st1
           else
             (match v with
              | some (.strV s) =>
                (match goParseFloat s with
                 | none =>
                   .ok (some (.errorV ("Eval: Cannot convert string '" ++ s
                     ++ "' to number: " ++ goParseFloatErrMsg s))) st1
                 | some f =>
                   if goContainsDot s then .ok (some (.floatV f)) st1
                   else .ok (some (.intV f.trunc)) st1)
              | some (.intV n) => .ok (some (.intV n)) st1
              | some (.floatV f) => .ok (some (.floatV f)) st1
              | some v' =>
                .ok (some (.errorV ("Eval: Cannot convert type " ++ objTypeStr v'
                  ++ " to number"))) st1
              | none => .panicked)
         | other => other)
      | .convertToString inner =>
        (match evalOExpr (Eval ptrEq fuel) inner st with
         | .ok v st1 =>
           if isErrorO v then .ok v st1
           else
             (match v with
              | some vv => .ok (some (.strV (inspect vv))) st1
              | none => .panicked)
         | other => other)
      | .funcLit _ _ =>
        .ok (some (.errorV "Eval: Node type not handled: *ast.FunctionLiteral")) st
      | .callE _ _ =>
        .ok (some (.errorV "Eval: Node type not handled: *ast.CallExpression")) st

/-- Interface comparison instantiated to `false` everywhere: the valid
instantiation of `ptrEq` for operand pairs known to be of different
dynamic types or at distinct heap addresses. -/
def ptrEqNever : Obj → Obj → Bool := fun _ _ => false

/-! ## The lexer (`lexer` package) — the parts exercised by the claims -/

/-- The `Lexer` struct: input (as a byte/char list), the two positions,
the current character, and the line/column counters. -/
structure Lexer where
  input : List Char
  position : Nat
  readPosition : Nat
  ch : Char
  line : Nat
  column : Nat

/-- `readChar`: load the character at `readPosition` (NUL at end of
input), advance both positions, bump the column. -/
def readChar (l : Lexer) : Lexer :=
  { l with
    ch := if l.readPosition ≥ l.input.length then Char.ofNat 0
          else l.input.getD l.readPosition (Char.ofNat 0),
    position := l.readPosition,
    readPosition := l.readPosition + 1,
    column := l.column + 1 }

/-- `lexer.New`: line 1, column 1, then one `readChar`. -/
def lexerNew (input : List Char) : Lexer :=
  readChar { input := input, position := 0, readPosition := 0,
             ch := Char.ofNat 0, line := 1, column := 1 }

/-- `unicode.IsSpace(rune(b))` for a byte `b` (ASCII whitespace plus the
two Latin-1 space characters). -/
def goIsSpaceByte (c : Char) : Bool :=
  c == ' ' || c == '\t' || c == '\n' || c.toNat == 11 || c.toNat == 12 ||
    c == '\r' || c.toNat == 133 || c.toNat == 160

/-- `unicode.IsLetter(rune(b))` for a byte `b` (ASCII letters plus the
Latin-1 letters). -/
def goIsLetterByte (c : Char) : Bool :=
  c.isAlpha || c.toNat == 170 || c.toNat == 181 || c.toNat == 186 ||
    (192 ≤ c.toNat && c.toNat ≤ 214) || (216 ≤ c.toNat && c.toNat ≤ 246) ||
    (248 ≤ c.toNat && c.toNat ≤ 255)

/-- `skipWhitespace` loop body, with an explicit bound on the number of
iterations (`readChar` strictly advances `readPosition`, and the loop
stops at the NUL it yields past the end of input, so `input.length + 2`
iterations always suffice). -/
def skipWhitespaceF : Nat → Lexer → Lexer
  | 0, l => l
  | f + 1, l =>
    if goIsSpaceByte l.ch then
      skipWhitespaceF f
        (readChar (if l.ch == '\n' then { l with line := l.line + 1, column := 0 } else l))
    else l

/-- `skipWhitespace`: newlines increment `line` and reset `column`. -/
def skipWhitespace (l : Lexer) : Lexer := skipWhitespaceF (l.input.length + 2) l

/-- The letter-consuming loop inside `peekKeyword`
(`for unicode.IsLetter(rune(l.ch)) { l.readChar() }`). -/
def readLettersF : Nat → Lexer → Lexer
  | 0, l => l
  | f + 1, l => if goIsLetterByte l.ch then readLettersF f (readChar l) else l

/-- `peekKeyword`: record `position`, `readPosition`, `column` and `ch`;
skip whitespace, read a word, compare it with the keyword, then restore
exactly the four recorded fields (the source does not record or restore
`line`). -/
def peekKeyword (l : Lexer) (keyword : List Char) : Bool × Lexer :=
  let currentPos := l.position
  let currentReadPos := l.readPosition
  let currentColumn := l.column
  let currentChar := l.ch
  let l1 := skipWhitespace l
  let startPos := l1.position
  let l2 := readLettersF (l1.input.length + 2) l1
  let peekedWord := (l2.input.drop startPos).take (l2.position - startPos)
  let l3 := { l2 with
    position := currentPos,
    readPosition := currentReadPos,
    column := currentColumn,
    ch := currentChar }
  (peekedWord == keyword, l3)

/-! ## The parser (`parser` package) -/

/-- A lexer token as the parser consumes it. -/
structure Token where
  ttype : String
  literal : String
  line : Int
  col : Int

/-- The zero `token.Token` the parser fields start from. -/
def zeroToken : Token := ⟨"", "", 0, 0⟩

/-- End-of-stream token supplied once the modelled token list is
exhausted. -/
def eofToken : Token := ⟨"EOF", "", 0, 0⟩

/-- Parser state: the remaining token stream, the `curToken`/`peekToken`
lookahead pair, and the collected diagnostics. -/
structure PSt where
  toks : List Token
  curToken : Token
  peekToken : Token
  errors : List String

/-- `Parser.nextToken`. -/
def pNextToken (p : PSt) : PSt :=
  { p with curToken := p.peekToken,
           peekToken := p.toks.headD eofToken,
           toks := p.toks.tail }

/-- `parser.New`: register the parse functions and read two tokens. -/
def parserNew (toks : List Token) : PSt :=
  pNextToken (pNextToken ⟨toks, zeroToken, zeroToken, []⟩)

/-- The prefix parse functions of the source (named labels for the
registration table); `parseFloatLiteral` exists in the source but is
registered for no token type. -/
inductive PrefixFn where
  | parseIdentifier | parseIntegerLiteral | parseStringLiteral | parseBoolean
  | parseFunctionStatement | parseListLiteral | parseGetItemAtIndexPrefix
  | parseIsDefinedExpression | parseConvertToNumberExpression
  | parseConvertToStringExpression | parseFloatLiteral
deriving DecidableEq, Repr

/-- The infix parse functions defined in the source (none is ever
registered: `registerParseFunctions` removed all `registerInfix` calls). -/
inductive InfixFn where
  | parseInfixExpression | parseGetItemAtIndexInfix | parseCallExpressionInfix
deriving DecidableEq, Repr

/-- The statement parse functions of the source. -/
inductive StmtFn where
  | parseLetStatement | parseIfStatement | parsePrintStatement
  | parseWhileStatement | parseForEachStatement | parseReturnStatement
  | parseExitStatement | parseInputStatement
deriving DecidableEq, Repr

/-- The `prefixParseFns` map built by `registerParseFunctions`
(`parser.go` lines 604–619). -/
def prefixParseFns : String → Option PrefixFn
  | "IDENT" => some .parseIdentifier
  | "NUMBER" => some .parseIntegerLiteral
  | "STRING" => some .parseStringLiteral
  | "TRUE" => some .parseBoolean
  | "FALSE" => some .parseBoolean
  | "FUNCTION" => some .parseFunctionStatement
  | "LIST" => some .parseListLiteral
  | "GETITEMATINDEX" => some .parseGetItemAtIndexPrefix
  | "ISDEFINED" => some .parseIsDefinedExpression
  | "CONVERTTONUMBER" => some .parseConvertToNumberExpression
  | "CONVERTTOSTRING" => some .parseConvertToStringExpression
  | _ => none

/-- The `infixParseFns` map: created empty and never written. -/
def infixParseFns : String → Option InfixFn := fun _ => none

/-- The `statementParseFns` map (`parser.go` lines 626–633; the `CALL`
registration is commented out in the source). -/
def statementParseFns : String → Option StmtFn
  | "LET" => some .parseLetStatement
  | "IF" => some .parseIfStatement
  | "PRINT" => some .parsePrintStatement
  | "WHILE" => some .parseWhileStatement
  | "FOREACH" => some .parseForEachStatement
  | "RETURN" => some .parseReturnStatement
  | "EXIT" => some .parseExitStatement
  | "INPUT" => some .parseInputStatement
  | _ => none

/-- The `precedence` table (`LOWEST = 1` up to `INDEX_PREC = 8`). -/
def precedenceOf : String → Option Nat
  | "EQUALS" => some 2
  | "NOTEQUALS" => some 2
  | "GREATERTHAN" => some 3
  | "LESSTHAN" => some 3
  | "GREATEREQUAL" => some 3
  | "LESSEQUAL" => some 3
  | "ADD" => some 4
  | "SUBTRACT" => some 4
  | "MULTIPLY" => some 5
  | "DIVIDE" => some 5
  | "OR" => some 2
  | "AND" => some 2
  | "CALL" => some 7
  | "GETITEMATINDEX" => some 8
  | _ => none

/-- `peekPrecedence` (defaults to `LOWEST`). -/
def peekPrecedence (p : PSt) : Nat := (precedenceOf p.peekToken.ttype).getD 1

/-- `curPrecedence`. -/
def curPrecedence (p : PSt) : Nat := (precedenceOf p.curToken.ttype).getD 1

/-- `peekError`: the `expected next token to be X, got Y` diagnostic. -/
def peekError (p : PSt) (t : String) : PSt :=
  { p with errors := p.errors ++
      ["expected next token to be " ++ t ++ ", got " ++ p.peekToken.ttype ++
        " instead at line " ++ toString p.peekToken.line ++ ", column " ++
        toString p.peekToken.col] }

/-- `expectPeek`: advance on a match, record a diagnostic otherwise. -/
def expectPeek (p : PSt) (t : String) : Bool × PSt :=
  if p.peekToken.ttype == t then (true, pNextToken p) else (false, peekError p t)

/-- `noPrefixParseFnError`. -/
def noPrefixParseFnError (p : PSt) : PSt :=
  { p with errors := p.errors ++
      ["no prefix parse function for " ++ p.curToken.ttype ++ " found at line " ++
        toString p.curToken.line ++ ", column " ++ toString p.curToken.col] }

/-- A hexadecimal/decimal digit value. -/
def charDigitVal (c : Char) : Option Nat :=
  if c.isDigit then some (c.toNat - 48)
  else if 'a' ≤ c && c ≤ 'f' then some (c.toNat - 87)
  else if 'A' ≤ c && c ≤ 'F' then some (c.toNat - 55)
  else none

/-- Consume all remaining characters as digits of the given base; `none`
on an invalid character or an empty digit string. -/
def goDigitsBase (base : Nat) : Nat → Nat → List Char → Option Nat
  | acc, count, [] => if count == 0 then none else some acc
  | acc, count, c :: rest =>
    match charDigitVal c with
    | some d => if d < base then goDigitsBase base (acc * base + d) (count + 1) rest else none
    | none => none

/-- The optional-sign prefix handling of `strconv.ParseInt`. -/
def goSignSplit (cs : List Char) : Bool × List Char :=
  match cs with
  | '+' :: r => (false, r)
  | '-' :: r => (true, r)
  | _ => (false, cs)

/-- The base-prefix detection of `strconv.ParseInt` with base 0:
`0x`/`0b`/`0o` prefixes, the legacy leading `0` for octal, else
decimal. -/
def goBaseSplit (cs : List Char) : Nat × List Char :=
  match cs with
  | '0' :: 'x' :: r => (16, r)
  | '0' :: 'X' :: r => (16, r)
  | '0' :: 'b' :: r => (2, r)
  | '0' :: 'B' :: r => (2, r)
  | '0' :: 'o' :: r => (8, r)
  | '0' :: 'O' :: r => (8, r)
  | '0' :: c :: r => (8, c :: r)
  | _ => (10, cs)

/-- `strconv.ParseInt(s, 0, 64)`: optional sign, base prefix detection,
digits, and the 64-bit range check.  (Digit-group underscores are not
modelled; the lexer only produces digit/dot literals.) -/
def goParseInt (s : String) : Option Int :=
  let signRest := goSignSplit s.toList
  let baseRest := goBaseSplit signRest.2
  match goDigitsBase baseRest.1 0 0 baseRest.2 with
  | none => none
  | some v =>
    let iv : Int := if signRest.1 then -(v : Int) else (v : Int)
    if iv < -(2 ^ 63) || iv > 2 ^ 63 - 1 then none else some iv

/-- `parseIntegerLiteral`: `strconv.ParseInt(literal, 0, 64)`, with the
`could not parse %q as integer` diagnostic and a nil node on failure. -/
def parseIntegerLiteral (p : PSt) : Option Expr × PSt :=
  match goParseInt p.curToken.literal with
  | some v => (some (.intLit v), p)
  | none =>
    (none, { p with errors := p.errors ++
      ["could not parse " ++ goQuote p.curToken.literal ++ " as integer at line " ++
        toString p.curToken.line ++ ", column " ++ toString p.curToken.col] })

/-- `parseFloatLiteral` (present in the source, registered nowhere):
`strconv.ParseFloat(literal, 64)` with the corresponding diagnostic. -/
def parseFloatLiteral (p : PSt) : Option Expr × PSt :=
  match goParseFloat p.curToken.literal with
  | some v => (some (.floatLit v), p)
  | none =>
    (none, { p with errors := p.errors ++
      ["could not parse " ++ goQuote p.curToken.literal ++ " as float at line " ++
        toString p.curToken.line ++ ", column " ++ toString p.curToken.col] })

/-- `parseIsDefinedExpression`. -/
def parseIsDefinedExpression (p : PSt) : Option Expr × PSt :=
  match expectPeek p "IDENT" with
  | (true, p1) => (some (.isDefinedE p1.curToken.literal), p1)
  | (false, p1) => (none, p1)

/-- The block terminator set of `parseBlockStatement`. -/
def blockTerminator (t : String) : Bool :=
  t == "ENDIF" || t == "ELSE" || t == "ELSEIF" || t == "ENDWHILE" ||
    t == "ENDFOREACH" || t == "END" || t == "EOF"

/-- The token kinds `parseCallArguments`/`parseListLiteral` accept as the
start of a further element. -/
def exprStartToken (t : String) : Bool :=
  t == "IDENT" || t == "NUMBER" || t == "STRING" || t == "TRUE" || t == "FALSE" ||
    t == "LIST" || t == "GETITEMATINDEX" || t == "CONVERTTONUMBER" ||
    t == "CONVERTTOSTRING"

/-- `parseFunctionParameters`' collection loop (`for p.peekTokenIs(IDENT)`). -/
def paramsLoop : Nat → List String → PSt → List String × PSt
  | 0, acc, p => (acc, p)
  | f + 1, acc, p =>
    if p.peekToken.ttype == "IDENT" then
      let p1 := pNextToken p
      paramsLoop f (acc ++ [p1.curToken.literal]) p1
    else (acc, p)

/-- `parseFunctionParameters`: the current token is the first parameter
(the no-parameter case is handled by the caller). -/
def parseFunctionParameters (fuel : Nat) (p : PSt) : List String × PSt :=
  if p.curToken.ttype == "IDENT" then paramsLoop fuel [p.curToken.literal] p
  else ([], p)

/-- `parseInputStatement`: optional string prompt. -/
def parseInputStatement (p : PSt) : Option Stmt × PSt :=
  if p.peekToken.ttype == "STRING" then
    let p1 := pNextToken p
    (some (.inputS (some p1.curToken.literal)), p1)
  else (some (.inputS none), p)

mutual

/-- `parseExpression` as the source now stands (`parser.go` 227–239):
look up the prefix function for the current token; if none, record the
`no prefix parse function` diagnostic and yield nil; otherwise run the
prefix function and return its result directly — the infix
precedence-climbing loop has been removed. -/
def parseExpression : Nat → Nat → PSt → Option Expr × PSt
  | 0, _, p => (none, p)
  | f + 1, _precedence, p =>
    match prefixParseFns p.curToken.ttype with
    | none => (none, noPrefixParseFnError p)
    | some fn => runPrefixFn f fn p

/-- Dispatch a registered prefix parse function. -/
def runPrefixFn : Nat → PrefixFn → PSt → Option Expr × PSt
  | 0, _, p => (none, p)
  | _ + 1, .parseIdentifier, p => (some (.ident p.curToken.literal), p)
  | _ + 1, .parseIntegerLiteral, p => parseIntegerLiteral p
  | _ + 1, .parseStringLiteral, p => (some (.strLit p.curToken.literal), p)
  | _ + 1, .parseBoolean, p => (some (.boolLit (p.curToken.ttype == "TRUE")), p)
  | f + 1, .parseFunctionStatement, p => parseFunctionStatement f p
  | f + 1, .parseListLiteral, p => parseListLiteral f p
  | f + 1, .parseGetItemAtIndexPrefix, p => parseGetItemAtIndexPrefix f p
  | _ + 1, .parseIsDefinedExpression, p => parseIsDefinedExpression p
  | f + 1, .parseConvertToNumberExpression, p => parseConvertToNumberExpression f p
  | f + 1, .parseConvertToStringExpression, p => parseConvertToStringExpression f p
  | _ + 1, .parseFloatLiteral, p => parseFloatLiteral p

/-- `parseStatement`: the statement-dispatch table, defaulting to an
expression statement. -/
def parseStatement : Nat → PSt → Option Stmt × PSt
  | 0, p => (none, p)
  | f + 1, p =>
    match statementParseFns p.curToken.ttype with
    | some fn => runStmtFn f fn p
    | none => parseExpressionStatement f p

/-- Dispatch a registered statement parse function. -/
def runStmtFn : Nat → StmtFn → PSt → Option Stmt × PSt
  | 0, _, p => (none, p)
  | f + 1, .parseLetStatement, p => parseLetStatement f p
  | f + 1, .parseIfStatement, p => parseIfStatement f p
  | f + 1, .parsePrintStatement, p => parsePrintStatement f p
  | f + 1, .parseWhileStatement, p => parseWhileStatement f p
  | f + 1, .parseForEachStatement, p => parseForEachStatement f p
  | f + 1, .parseReturnStatement, p => parseReturnStatement f p
  | f + 1, .parseExitStatement, p => parseExitStatement f p
  | _ + 1, .parseInputStatement, p => parseInputStatement p

/-- `parseExpressionStatement`. -/
def parseExpressionStatement : Nat → PSt → Option Stmt × PSt
  | 0, p => (none, p)
  | f + 1, p =>
    let ep := parseExpression f 1 p
    (some (.exprS ep.1), ep.2)

/-- `parseLetStatement`: `let <ident> be <expr>` (the source's debug
`fmt.Println` traces are not modelled). -/
def parseLetStatement : Nat → PSt → Option Stmt × PSt
  | 0, p => (none, p)
  | f + 1, p =>
    match expectPeek p "IDENT" with
    | (false, p1) => (none, p1)
    | (true, p1) =>
      let name := p1.curToken.literal
      match expectPeek p1 "BE" with
      | (false, p2) => (none, p2)
      | (true, p2) =>
        let p3 := pNextToken p2
        let vp := parseExpression f 1 p3
        (some (.letS name vp.1), vp.2)

/-- `parseReturnStatement`. -/
def parseReturnStatement : Nat → PSt → Option Stmt × PSt
  | 0, p => (none, p)
  | f + 1, p =>
    let p1 := pNextToken p
    let vp := parseExpression f 1 p1
    (some (.returnS vp.1), vp.2)

/-- `parseIfStatement`. -/
def parseIfStatement : Nat → PSt → Option Stmt × PSt
  | 0, p => (none, p)
  | f + 1, p =>
    let p1 := pNextToken p
    let cp := parseExpression f 1 p1
    match expectPeek cp.2 "THEN" with
    | (false, p3) => (none, p3)
    | (true, p3) =>
      let tb := parseBlockStatement f p3
      match parseElseIfs f [] tb.2 with
      | (none, p5) => (none, p5)
      | (some elifs, p5) =>
        let eb : Option (List Stmt) × PSt :=
          if p5.peekToken.ttype == "ELSE" then
            let q := pNextToken p5
            let bq := parseBlockStatement f q
            (some bq.1, bq.2)
          else (none, p5)
        match expectPeek eb.2 "ENDIF" with
        | (false, p7) => (none, p7)
        | (true, p7) => (some (.ifS cp.1 tb.1 elifs eb.1), p7)

/-- The `elseif` collection loop of `parseIfStatement`; `none` models the
source's `return nil` on a failed `expectPeek(THEN)`. -/
def parseElseIfs : Nat → List (Option Expr × List Stmt) → PSt →
    Option (List (Option Expr × List Stmt)) × PSt
  | 0, _, p => (none, p)
  | f + 1, acc, p =>
    if p.peekToken.ttype == "ELSEIF" then
      let p1 := pNextToken p
      let cp := parseExpression f 1 p1
      match expectPeek cp.2 "THEN" with
      | (false, p3) => (none, p3)
      | (true, p3) =>
        let bp := parseBlockStatement f p3
        parseElseIfs f (acc ++ [(cp.1, bp.1)]) bp.2
    else (some acc, p)

/-- `parseBlockStatement`: consume one token, then statements until a
block terminator (left unconsumed). -/
def parseBlockStatement : Nat → PSt → List Stmt × PSt
  | 0, p => ([], p)
  | f + 1, p => parseBlockLoop f [] (pNextToken p)

/-- The statement loop of `parseBlockStatement` (nil statements are not
appended). -/
def parseBlockLoop : Nat → List Stmt → PSt → List Stmt × PSt
  | 0, acc, p => (acc, p)
  | f + 1, acc, p =>
    if blockTerminator p.curToken.ttype then (acc, p)
    else
      let sp := parseStatement f p
      let acc' := match sp.1 with
        | some st => acc ++ [st]
        | none => acc
      parseBlockLoop f acc' (pNextToken sp.2)

/-- `parseWhileStatement`. -/
def parseWhileStatement : Nat → PSt → Option Stmt × PSt
  | 0, p => (none, p)
  | f + 1, p =>
    let p1 := pNextToken p
    let cp := parseExpression f 1 p1
    match expectPeek cp.2 "DO" with
    | (false, p3) => (none, p3)
    | (true, p3) =>
      let bp := parseBlockStatement f p3
      match expectPeek bp.2 "ENDWHILE" with
      | (false, p5) => (none, p5)
      | (true, p5) => (some (.whileS cp.1 bp.1), p5)

/-- `parseForEachStatement`. -/
def parseForEachStatement : Nat → PSt → Option Stmt × PSt
  | 0, p => (none, p)
  | f + 1, p =>
    match expectPeek p "IDENT" with
    | (false, p1) => (none, p1)
    | (true, p1) =>
      let varName := p1.curToken.literal
      match expectPeek p1 "IN" with
      | (false, p2) => (none, p2)
      | (true, p2) =>
        let p3 := pNextToken p2
        let ip := parseExpression f 1 p3
        match expectPeek ip.2 "DO" with
        | (false, p5) => (none, p5)
        | (true, p5) =>
          let bp := parseBlockStatement f p5
          match expectPeek bp.2 "ENDFOREACH" with
          | (false, p7) => (none, p7)
          | (true, p7) => (some (.forEachS varName ip.1 bp.1), p7)

/-- `parseFunctionStatement` (a function literal in expression position).
Note the source's closing condition
`!p.expectPeek(ENDFUNCTION) && !p.expectPeek(END)`: if the first
`expectPeek` fails it records a diagnostic and the second is tried. -/
def parseFunctionStatement : Nat → PSt → Option Expr × PSt
  | 0, p => (none, p)
  | f + 1, p =>
    let pp : List String × PSt :=
      if p.peekToken.ttype == "IDENT" then
        parseFunctionParameters f (pNextToken p)
      else ([], p)
    let bp := parseBlockStatement f pp.2
    match expectPeek bp.2 "ENDFUNCTION" with
    | (true, q) => (some (.funcLit pp.1 bp.1), q)
    | (false, q) =>
      match expectPeek q "END" with
      | (true, q2) => (some (.funcLit pp.1 bp.1), q2)
      | (false, q2) => (none, q2)

/-- `parsePrintStatement`. -/
def parsePrintStatement : Nat → PSt → Option Stmt × PSt
  | 0, p => (none, p)
  | f + 1, p =>
    let p1 := pNextToken p
    let vp := parseExpression f 1 p1
    (some (.printS vp.1), vp.2)

/-- `parseListLiteral`. -/
def parseListLiteral : Nat → PSt → Option Expr × PSt
  | 0, p => (none, p)
  | f + 1, p =>
    if p.peekToken.ttype == "END" then (some (.listLit []), pNextToken p)
    else
      let p1 := pNextToken p
      let ep := parseExpression f 1 p1
      listElemsLoop f [ep.1] ep.2

/-- The element loop of `parseListLiteral`, guessing further elements
from `exprStartToken`. -/
def listElemsLoop : Nat → List (Option Expr) → PSt → Option Expr × PSt
  | 0, acc, p => (some (.listLit acc), p)
  | f + 1, acc, p =>
    if exprStartToken p.peekToken.ttype then
      let p1 := pNextToken p
      let ep := parseExpression f 1 p1
      listElemsLoop f (acc ++ [ep.1]) ep.2
    else (some (.listLit acc), p)

/-- `parseGetItemAtIndexPrefix`: `get item at index <expr> from <expr>`. -/
def parseGetItemAtIndexPrefix : Nat → PSt → Option Expr × PSt
  | 0, p => (none, p)
  | f + 1, p =>
    let p1 := pNextToken p
    let ip := parseExpression f 1 p1
    match expectPeek ip.2 "FROM" with
    | (false, p3) => (none, p3)
    | (true, p3) =>
      let p4 := pNextToken p3
      let lp := parseExpression f 1 p4
      (some (.getItemAtIndex lp.1 ip.1), lp.2)

/-- `parseConvertToNumberExpression`. -/
def parseConvertToNumberExpression : Nat → PSt → Option Expr × PSt
  | 0, p => (none, p)
  | f + 1, p =>
    let p1 := pNextToken p
    let ep := parseExpression f 1 p1
    (some (.convertToNumber ep.1), ep.2)

/-- `parseConvertToStringExpression`. -/
def parseConvertToStringExpression : Nat → PSt → Option Expr × PSt
  | 0, p => (none, p)
  | f + 1, p =>
    let p1 := pNextToken p
    let ep := parseExpression f 1 p1
    (some (.convertToString ep.1), ep.2)

/-- `parseExitStatement`: optional exit-code expression. -/
def parseExitStatement : Nat → PSt → Option Stmt × PSt
  | 0, p => (none, p)
  | f + 1, p =>
    if !(p.peekToken.ttype == "END") && !(p.peekToken.ttype == "EOF") then
      let p1 := pNextToken p
      let cp := parseExpression f 1 p1
      (some (.exitS cp.1), cp.2)
    else (some (.exitS none), p)

end

/-- The statement loop of `ParseProgram` (nil statements are skipped, and
`nextToken` always advances). -/
def parseProgramLoop : Nat → List Stmt → PSt → List Stmt × PSt
  | 0, acc, p => (acc, p)
  | f + 1, acc, p =>
    if p.curToken.ttype == "EOF" then (acc, p)
    else
      let sp := parseStatement f p
      let acc' := match sp.1 with
        | some st => acc ++ [st]
        | none => acc
      parseProgramLoop f acc' (pNextToken sp.2)

/-- `ParseProgram` on a token stream. -/
def ParseProgram (fuel : Nat) (toks : List Token) : List Stmt × PSt :=
  parseProgramLoop fuel [] (parserNew toks)

/-- `parseInfixExpression` (`parser.go` 313–325): present in the source
but registered for no token type and called from nowhere.  It would build
`InfixExpression{Left: left, Operator: curToken.Literal}` with the right
side parsed at the operator's own precedence. -/
def parseInfixExpression (fuel : Nat) (left : Option Expr) (p : PSt) :
    Option Expr × PSt :=
  let op := p.curToken.literal
  let prec := curPrecedence p
  let p1 := pNextToken p
  let rp := parseExpression fuel prec p1
  (some (.infixE op left rp.1), rp.2)

/-! ## Concrete material used by the claim theorems -/

/-- An empty top-level state: one empty frame, no output, no input. -/
def stEmpty : St := ⟨[[]], [], []⟩

/-- The AST of `let f be function a b return add a b end function`
followed by `call f 2 3` (built directly: the parser cannot even parse
`call`, which has neither a statement nor a prefix parse function). -/
def c1Program : List Stmt :=
  [ .letS "f" (some (.funcLit ["a", "b"]
      [ .returnS (some (.infixE "add" (some (.ident "a")) (some (.ident "b")))) ])),
    .exprS (some (.callE (some (.ident "f")) [some (.intLit 2), some (.intLit 3)])) ]

/-- The token stream of `1 add 2` as the lexer produces it. -/
def c2Toks : List Token :=
  [⟨"NUMBER", "1", 1, 1⟩, ⟨"ADD", "add", 1, 3⟩, ⟨"NUMBER", "2", 1, 7⟩, ⟨"EOF", "", 1, 8⟩]

/-- The binary-operator token types of the claim. -/
def binaryOpTokens : List String :=
  ["EQUALS", "NOTEQUALS", "GREATERTHAN", "LESSTHAN", "GREATEREQUAL", "LESSEQUAL",
   "ADD", "SUBTRACT", "MULTIPLY", "DIVIDE", "AND", "OR"]

/-- Whether a pair of objects is the integer/float (either order) cross
combination that `equals` compares numerically. -/
def numCross (l r : Obj) : Prop :=
  (l.kind = .kInt ∧ r.kind = .kFloat) ∨ (l.kind = .kFloat ∧ r.kind = .kInt)

/-- `foreach x in list(1, 2, 3) do print x let x be 99 endforeach`:
the body prints the loop variable and then rebinds it. -/
def c6Example : Stmt :=
  .forEachS "x" (some (.listLit [some (.intLit 1), some (.intLit 2), some (.intLit 3)]))
    [ .printS (some (.ident "x")), .letS "x" (some (.intLit 99)) ]

/-- `get item at index 5 from list(1, 2, 3)`. -/
def c7Example : Expr :=
  .getItemAtIndex
    (some (.listLit [some (.intLit 1), some (.intLit 2), some (.intLit 3)]))
    (some (.intLit 5))

/-- A lexer freshly constructed on the input `"\nor"`: the next word is
preceded by a newline. -/
def c9Lexer : Lexer := lexerNew ['\n', 'o', 'r']

/-- A parser state whose current token is the `NUMBER` token `3.14`
(line 1, column 1), as the lexer emits for the literal `3.14`. -/
def c10St : PSt := ⟨[], ⟨"NUMBER", "3.14", 1, 1⟩, eofToken, []⟩

/-- A parser state whose current token is an `ADD` operator token. -/
def c2AddSt : PSt := ⟨[], ⟨"ADD", "add", 1, 3⟩, eofToken, []⟩

/-! ## Absence of `FloatLiteral` nodes (used by claim C10) -/

mutual

/-- No `FloatLiteral` node occurs anywhere in the expression. -/
def exprNoFloat : Expr → Bool
  | .ident _ => true
  | .intLit _ => true
  | .floatLit _ => false
  | .strLit _ => true
  | .boolLit _ => true
  | .prefixE _ r => oexprNoFloat r
  | .infixE _ l r => oexprNoFloat l && oexprNoFloat r
  | .listLit es => oexprsNoFloat es
  | .getItemAtIndex l i => oexprNoFloat l && oexprNoFloat i
  | .isDefinedE _ => true
  | .convertToNumber e => oexprNoFloat e
  | .convertToString e => oexprNoFloat e
  | .funcLit _ b => stmtsNoFloat b
  | .callE f as => oexprNoFloat f && oexprsNoFloat as

/-- `exprNoFloat` on an optional expression (a nil node has no floats). -/
def oexprNoFloat : Option Expr → Bool
  | none => true
  | some e => exprNoFloat e

/-- `oexprNoFloat` over a list. -/
def oexprsNoFloat : List (Option Expr) → Bool
  | [] => true
  | e :: rest => oexprNoFloat e && oexprsNoFloat rest

/-- No `FloatLiteral` node occurs anywhere in the statement. -/
def stmtNoFloat : Stmt → Bool
  | .letS _ v => oexprNoFloat v
  | .returnS v => oexprNoFloat v
  | .exprS e => oexprNoFloat e
  | .ifS c t eis eb => oexprNoFloat c && stmtsNoFloat t && elifsNoFloat eis && oblockNoFloat eb
  | .whileS c b => oexprNoFloat c && stmtsNoFloat b
  | .forEachS _ i b => oexprNoFloat i && stmtsNoFloat b
  | .printS v => oexprNoFloat v
  | .inputS _ => true
  | .exitS c => oexprNoFloat c

/-- `stmtNoFloat` over a list. -/
def stmtsNoFloat : List Stmt → Bool
  | [] => true
  | s :: rest => stmtNoFloat s && stmtsNoFloat rest

/-- No floats in a list of `elseif` branches. -/
def elifsNoFloat : List (Option Expr × List Stmt) → Bool
  | [] => true
  | (c, b) :: rest => oexprNoFloat c && stmtsNoFloat b && elifsNoFloat rest

/-- No floats in an optional block. -/
def oblockNoFloat : Option (List Stmt) → Bool
  | none => true
  | some b => stmtsNoFloat b

end

/-- `stmtNoFloat` on an optional statement. -/
def ostmtNoFloat : Option Stmt → Bool
  | none => true
  | some s => stmtNoFloat s

/-! ## Helper lemmas -/

/-- `readChar` never touches `input` or `line`. -/
theorem readChar_input_line (l : Lexer) :
    (readChar l).input = l.input ∧ (readChar l).line = l.line := ⟨rfl, rfl⟩

/-- The whitespace loop never changes the input. -/
theorem skipWhitespaceF_input (f : Nat) : ∀ l : Lexer, (skipWhitespaceF f l).input = l.input := by
  induction f with
  | zero => intro l; rfl
  | succ f ih =>
    intro l
    unfold skipWhitespaceF
    by_cases h : goIsSpaceByte l.ch
    · simp only [h, if_true]
      rw [ih]
      by_cases h2 : l.ch == '\n' <;> simp [h2, readChar]
    · simp [h]

/-- The letter loop never changes the input. -/
theorem readLettersF_input (f : Nat) : ∀ l : Lexer, (readLettersF f l).input = l.input := by
  induction f with
  | zero => intro l; rfl
  | succ f ih =>
    intro l
    unfold readLettersF
    by_cases h : goIsLetterByte l.ch
    · simp only [h, if_true]; rw [ih]; rfl
    · simp [h]

/-- The letter loop never changes the line counter. -/
theorem readLettersF_line (f : Nat) : ∀ l : Lexer, (readLettersF f l).line = l.line := by
  induction f with
  | zero => intro l; rfl
  | succ f ih =>
    intro l
    unfold readLettersF
    by_cases h : goIsLetterByte l.ch
    · simp only [h, if_true]; rw [ih]; rfl
    · simp [h]

/-- `isErrorO` on a non-nil object is `isError`. -/
theorem isErrorO_some (v : Obj) : isErrorO (some v) = isError v := by
  cases v <;> rfl

/-! ## The claims -/

/-- **C1** (counterexample).  Running the pipeline's evaluator on the
program `let f be function a b return add a b end function` / `call f 2 3`
does not yield the integer 5: the very first statement already evaluates
the function literal to the `Node type not handled` error (the evaluator
has no `FunctionLiteral` case), which `evalProgram` propagates as the
program's result. -/
theorem c1_pipeline_counterexample :
    Eval ptrEqNever 10 (.prog c1Program) stEmpty =
      .ok (some (.errorV "Eval: Node type not handled: *ast.FunctionLiteral")) stEmpty := rfl

/-- **C1** (amended).  Function values are unimplemented: `Eval` has no
case for `FunctionLiteral` or `CallExpression`, so each evaluates — in any
state, under any interface equality, with any step budget — to the default
`Eval: Node type not handled` error; a `call` can therefore never evaluate
its callee, bind parameters, or unwrap a `ReturnSignal`, and the claimed
result 5 is unreachable. -/
theorem c1_function_and_call_not_handled (ptrEq : Obj → Obj → Bool) (fuel : Nat)
    (st : St) (params : List String) (body : List Stmt)
    (fn : Option Expr) (args : List (Option Expr)) :
    Eval ptrEq (fuel + 1) (.expr (.funcLit params body)) st =
      .ok (some (.errorV "Eval: Node type not handled: *ast.FunctionLiteral")) st ∧
    Eval ptrEq (fuel + 1) (.expr (.callE fn args)) st =
      .ok (some (.errorV "Eval: Node type not handled: *ast.CallExpression")) st :=
  ⟨rfl, rfl⟩

/-- **C2** (counterexample).  Parsing the token sequence `1 add 2`
produces no `InfixExpression` at all: the parser yields the statements
`[1, <nil>, 2]` plus the `no prefix parse function for ADD` diagnostic,
refuting the claim that every `<left> <op> <right>` sequence is parsed by
a precedence-climbing loop into an infix tree. -/
theorem c2_no_infix_counterexample :
    (ParseProgram 20 c2Toks).1 =
      [.exprS (some (.intLit 1)), .exprS none, .exprS (some (.intLit 2))] ∧
    (ParseProgram 20 c2Toks).2.errors =
      ["no prefix parse function for ADD found at line 1, column 3"] :=
  ⟨rfl, rfl⟩

/-- **C2** (amended).  The infix machinery is disconnected: no infix parse
function is registered for any token type, no binary-operator token has a
prefix parse function, and `parseExpression` runs no precedence-climbing
loop — it parses one prefix expression and returns it, so a binary
operator in expression position yields a `no prefix parse function`
diagnostic and a nil node instead of an `InfixExpression`. -/
theorem c2_expression_parsing_has_no_infix_loop :
    (∀ t, infixParseFns t = none) ∧
    (∀ t, t ∈ binaryOpTokens → prefixParseFns t = none) ∧
    (∀ (f prec : Nat) (p : PSt), prefixParseFns p.curToken.ttype = none →
        parseExpression (f + 1) prec p = (none, noPrefixParseFnError p)) := by
  refine ⟨fun t => rfl, ?_, ?_⟩
  · intro t ht
    simp only [binaryOpTokens, List.mem_cons, List.not_mem_nil, or_false] at ht
    rcases ht with rfl | rfl | rfl | rfl | rfl | rfl | rfl | rfl | rfl | rfl | rfl | rfl <;> rfl
  · intro f prec p h
    unfold parseExpression
    rw [h]

/-- **C2** (witness). -/
theorem c2_witness :
    infixParseFns "ADD" = none ∧
    parseExpression 5 1 c2AddSt = (none, noPrefixParseFnError c2AddSt) :=
  ⟨c2_expression_parsing_has_no_infix_loop.1 "ADD",
   c2_expression_parsing_has_no_infix_loop.2.2 4 1 c2AddSt rfl⟩

/-- **C3** (code bug).  The divisor zero check of
`evalDivideInfixExpression` type-asserts the divisor as `*object.Integer`
and then as `*object.Float` *before* checking its dynamic type, so it
panics (an interface-conversion panic, modelled as `none`) for every
divisor other than the integer 0 — `6 divide 3` panics instead of
yielding 2, `1 divide 2.0` panics, and only an integer-zero divisor
reaches the `DivisionByZero` error the claim (and the clearly intended
code below the check) describes. -/
theorem c3_divide_zero_check_panics :
    evalDivideInfixExpression "divide" (.intV 6) (.intV 3) = none ∧
    evalDivideInfixExpression "divide" (.intV 1) (.floatV ⟨2, 1⟩) = none ∧
    evalDivideInfixExpression "divide" (.strV "a") (.intV 2) = none ∧
    evalDivideInfixExpression "divide" (.intV 1) (.intV 0) =
      some (.errorV "Eval: Division by zero error") :=
  ⟨rfl, rfl, rfl, rfl⟩

/-- **C5**.  Truthiness (as consumed by `and`, `or`, `if` and `while`,
which all branch through `isTruthy`) holds exactly for values that are
neither `Null` nor the boolean `false`; integer 0 and the empty string
are truthy; and prefix `not` is exactly the inversion of truthiness —
true ↦ false, false ↦ true, null ↦ true, everything else ↦ false. -/
theorem c5_truthiness_and_not :
    (∀ v : Obj, isTruthy v = true ↔ (v ≠ .nullV ∧ v ≠ .boolV false)) ∧
    isTruthy (.intV 0) = true ∧
    isTruthy (.strV "") = true ∧
    (∀ v : Obj, evalNotOperatorExpression v = .boolV (! isTruthy v)) ∧
    evalNotOperatorExpression (.boolV true) = .boolV false ∧
    evalNotOperatorExpression (.boolV false) = .boolV true ∧
    evalNotOperatorExpression .nullV = .boolV true ∧
    (∀ l r : Option Obj,
      evalAndInfixExpression l r = nativeBoolToBooleanObject (isTruthyO l && isTruthyO r)) ∧
    (∀ l r : Option Obj,
      evalOrInfixExpression l r = nativeBoolToBooleanObject (isTruthyO l || isTruthyO r)) := by
  refine ⟨?_, rfl, rfl, ?_, rfl, rfl, rfl, fun l r => rfl, fun l r => rfl⟩
  · intro v
    cases v with
    | boolV b => cases b <;> simp [isTruthy]
    | _ => simp [isTruthy]
  · intro v
    cases v with
    | boolV b => cases b <;> rfl
    | _ => rfl

/-- **C9** (counterexample).  A failed `peekKeyword` does not leave the
whole lexer state intact: on a lexer freshly built over `"\nor"`, peeking
for `equal` fails, yet the `line` counter has moved from 1 to 2 (the
newline skipped during the peek is counted and never rolled back). -/
theorem c9_line_not_restored_counterexample :
    (peekKeyword c9Lexer ['e', 'q', 'u', 'a', 'l']).1 = false ∧
    c9Lexer.line = 1 ∧
    (peekKeyword c9Lexer ['e', 'q', 'u', 'a', 'l']).2.line = 2 :=
  ⟨rfl, rfl, rfl⟩

/-- **C9** (amended).  For every lexer state and candidate keyword —
successful or failed — `peekKeyword` restores `position`, `readPosition`,
`column` and `ch` exactly (and never touches the input), but it does not
save or restore `line`: the resulting `line` is whatever `skipWhitespace`
advanced it to, so whitespace containing newlines before the peeked word
leaves `line` permanently advanced. -/
theorem c9_peek_restores_all_but_line (l : Lexer) (kw : List Char) :
    (peekKeyword l kw).2.position = l.position ∧
    (peekKeyword l kw).2.readPosition = l.readPosition ∧
    (peekKeyword l kw).2.column = l.column ∧
    (peekKeyword l kw).2.ch = l.ch ∧
    (peekKeyword l kw).2.input = l.input ∧
    (peekKeyword l kw).2.line = (skipWhitespace l).line := by
  refine ⟨rfl, rfl, rfl, rfl, ?_, ?_⟩
  · show (readLettersF ((skipWhitespace l).input.length + 2) (skipWhitespace l)).input = l.input
    rw [readLettersF_input]
    exact skipWhitespaceF_input _ l
  · show (readLettersF ((skipWhitespace l).input.length + 2) (skipWhitespace l)).line =
      (skipWhitespace l).line
    rw [readLettersF_line]

/-- `equals` on a pair of objects whose kinds differ and are not the
integer/float cross pair falls through all six structural branches to the
Go interface comparison. -/
theorem equals_fallback (ptrEq : Obj → Obj → Bool) (l r : Obj)
    (hk : l.kind ≠ r.kind) (hnc : ¬ numCross l r) :
    evalEqualsInfixExpression ptrEq l r = nativeBoolToBooleanObject (ptrEq l r) := by
  cases l <;> cases r <;>
    first
      | rfl
      | simp_all [numCross, Obj.kind]

/-- `equals` always produces a boolean object. -/
theorem equals_isBool (ptrEq : Obj → Obj → Bool) (l r : Obj) :
    ∃ b : Bool, evalEqualsInfixExpression ptrEq l r = .boolV b := by
  cases l <;> cases r <;> exact ⟨_, rfl⟩

/-- **C4**.  `equals` is structural (value) equality for two operands of
the same primitive kind, numeric value equality between an integer and a
float in either order, and the Go interface (reference) comparison for
every other combination of differing kinds — which is constantly false
there, since interface values of different dynamic types are never `==`;
in particular a list never `equals` a string.  `notequals` is exactly the
boolean negation of `equals` on the same operands. -/
theorem c4_equals_structural_notequals_negation (ptrEq : Obj → Obj → Bool)
    (hptr : ∀ a b : Obj, a.kind ≠ b.kind → ptrEq a b = false) :
    (∀ a b : Int, evalEqualsInfixExpression ptrEq (.intV a) (.intV b) = .boolV (a == b)) ∧
    (∀ x y : F64, evalEqualsInfixExpression ptrEq (.floatV x) (.floatV y) = .boolV (x.beq y)) ∧
    (∀ s t : String, evalEqualsInfixExpression ptrEq (.strV s) (.strV t) = .boolV (s == t)) ∧
    (∀ a b : Bool, evalEqualsInfixExpression ptrEq (.boolV a) (.boolV b) = .boolV (a == b)) ∧
    (∀ (x : F64) (n : Int),
      evalEqualsInfixExpression ptrEq (.floatV x) (.intV n) = .boolV (x.beq (F64.fromInt n))) ∧
    (∀ (n : Int) (y : F64),
      evalEqualsInfixExpression ptrEq (.intV n) (.floatV y) = .boolV ((F64.fromInt n).beq y)) ∧
    (∀ l r : Obj, l.kind ≠ r.kind → ¬ numCross l r →
      evalEqualsInfixExpression ptrEq l r = .boolV (ptrEq l r) ∧
      evalEqualsInfixExpression ptrEq l r = .boolV false) ∧
    (∀ (xs : List Obj) (s : String),
      evalEqualsInfixExpression ptrEq (.listV xs) (.strV s) = .boolV false) ∧
    (∀ l r : Obj, ∃ b : Bool,
      evalEqualsInfixExpression ptrEq l r = .boolV b ∧
      evalNotEqualsInfixExpression ptrEq l r = .boolV (!b)) := by
  have hfall : ∀ l r : Obj, l.kind ≠ r.kind → ¬ numCross l r →
      evalEqualsInfixExpression ptrEq l r = .boolV (ptrEq l r) ∧
      evalEqualsInfixExpression ptrEq l r = .boolV false := by
    intro l r hk hnc
    have h1 := equals_fallback ptrEq l r hk hnc
    exact ⟨h1, by rw [h1, hptr l r hk]; rfl⟩
  refine ⟨fun a b => rfl, fun x y => rfl, fun s t => rfl, fun a b => rfl,
    fun x n => rfl, fun n y => rfl, hfall, ?_, ?_⟩
  · intro xs s
    exact (hfall (.listV xs) (.strV s) (by simp [Obj.kind]) (by simp [numCross, Obj.kind])).2
  · intro l r
    obtain ⟨b, hb⟩ := equals_isBool ptrEq l r
    refine ⟨b, hb, ?_⟩
    unfold evalNotEqualsInfixExpression
    rw [hb]
    cases b <;> rfl

/-- **C4** (witness). -/
theorem c4_witness :
    evalEqualsInfixExpression ptrEqNever (.listV []) (.strV "a") = .boolV false ∧
    evalNotEqualsInfixExpression ptrEqNever (.listV []) (.strV "a") = .boolV true :=
  ⟨((c4_equals_structural_notequals_negation ptrEqNever (fun _ _ _ => rfl)).2.2.2.2.2.2.2.1
      [] "a"),
   rfl⟩

/-- Unfolding `Eval` at a `foreach` statement. -/
theorem eval_forEach_unfold (ptrEq : Obj → Obj → Bool) (fuel : Nat) (varName : String)
    (iterable : Option Expr) (body : List Stmt) (st : St) :
    Eval ptrEq (fuel + 1) (.stmt (.forEachS varName iterable body)) st =
      (match evalOExpr (Eval ptrEq fuel) iterable st with
       | .ok iv st1 =>
         if isErrorO iv then .ok iv st1
         else
           (match iv with
            | some (.listV elems) =>
              forEachLoopGo (Eval ptrEq fuel) varName body elems (some .nullV) st1
            | some v =>
              .ok (some (.errorV ("Eval: 'for each' loop requires a list as iterable, got "
                ++ objTypeStr v))) st1
            | none => .panicked)
       | other => other) := rfl

/-- Unfolding one `foreach` iteration. -/
theorem forEachLoopGo_cons (evalF : Node → St → EvalRes) (varName : String)
    (body : List Stmt) (e : Obj) (rest : List Obj) (acc : Option Obj) (st : St) :
    forEachLoopGo evalF varName body (e :: rest) acc st =
      (match evalF (.block body) { st with env := [(varName, e)] :: st.env } with
       | .ok br st2 =>
         (match br with
          | some (.returnV v) => .ok (some (.returnV v)) { st2 with env := st2.env.tail }
          | some (.errorV m) => .ok (some (.errorV m)) { st2 with env := st2.env.tail }
          | _ => forEachLoopGo evalF varName body rest br { st2 with env := st2.env.tail })
       | other => other) := rfl

/-- **C6**.  `foreach` semantics: a non-list iterable value yields the
type-mismatch error; a list starts the element loop with a `NULL`
accumulator; each iteration evaluates the body in a fresh child
environment whose only local binding is the loop variable set to the
current element (so a rebinding inside one iteration lives in that
discarded frame and cannot change the value the next iteration starts
with); a `ReturnSignal` or `Error` from the body is propagated
immediately, skipping the remaining elements; otherwise the loop carries
the body value to yield the last one (or the initial `NULL`).  The final
conjunct runs the spec's own example — a body that prints `x` and then
rebinds it — and the output is still `1`, `2`, `3` on separate lines. -/
theorem c6_foreach_semantics (ptrEq : Obj → Obj → Bool) (fuel : Nat)
    (varName : String) (iterable : Option Expr) (body : List Stmt)
    (st st1 : St) (v : Obj)
    (hiter : evalOExpr (Eval ptrEq fuel) iterable st = .ok (some v) st1) :
    ((∀ elems, v ≠ .listV elems) → isError v = false →
      Eval ptrEq (fuel + 1) (.stmt (.forEachS varName iterable body)) st =
        .ok (some (.errorV ("Eval: 'for each' loop requires a list as iterable, got "
          ++ objTypeStr v))) st1) ∧
    (∀ elems, v = .listV elems →
      Eval ptrEq (fuel + 1) (.stmt (.forEachS varName iterable body)) st =
        forEachLoopGo (Eval ptrEq fuel) varName body elems (some .nullV) st1) ∧
    (∀ (e : Obj) (rest : List Obj) (acc : Option Obj) (st2 : St) (r : Obj) (st3 : St),
      Eval ptrEq fuel (.block body) { st2 with env := [(varName, e)] :: st2.env } =
          .ok (some (.returnV r)) st3 →
      forEachLoopGo (Eval ptrEq fuel) varName body (e :: rest) acc st2 =
        .ok (some (.returnV r)) { st3 with env := st3.env.tail }) ∧
    (∀ (e : Obj) (rest : List Obj) (acc : Option Obj) (st2 : St) (m : String) (st3 : St),
      Eval ptrEq fuel (.block body) { st2 with env := [(varName, e)] :: st2.env } =
          .ok (some (.errorV m)) st3 →
      forEachLoopGo (Eval ptrEq fuel) varName body (e :: rest) acc st2 =
        .ok (some (.errorV m)) { st3 with env := st3.env.tail }) ∧
    (∀ (e : Obj) (rest : List Obj) (acc : Option Obj) (st2 : St) (br : Option Obj) (st3 : St),
      Eval ptrEq fuel (.block body) { st2 with env := [(varName, e)] :: st2.env } =
          .ok br st3 →
      (∀ r, br ≠ some (.returnV r)) → (∀ m, br ≠ some (.errorV m)) →
      forEachLoopGo (Eval ptrEq fuel) varName body (e :: rest) acc st2 =
        forEachLoopGo (Eval ptrEq fuel) varName body rest br { st3 with env := st3.env.tail }) ∧
    Eval ptrEqNever 10 (.stmt c6Example) stEmpty =
      .ok (some (.intV 99)) { stEmpty with out := ["1\n", "2\n", "3\n"] } := by
  refine ⟨?_, ?_, ?_, ?_, ?_, rfl⟩
  · intro hnl herr
    rw [eval_forEach_unfold, hiter]
    cases v with
    | listV elems => exact absurd rfl (hnl elems)
    | errorV m => simp [isError] at herr
    | _ => rfl
  · intro elems hv
    subst hv
    rw [eval_forEach_unfold, hiter]
    rfl
  · intro e rest acc st2 r st3 hbody
    rw [forEachLoopGo_cons, hbody]
  · intro e rest acc st2 m st3 hbody
    rw [forEachLoopGo_cons, hbody]
  · intro e rest acc st2 br st3 hbody hret herr
    rw [forEachLoopGo_cons, hbody]
    rcases br with _ | bv
    · rfl
    · cases bv with
      | returnV r => exact absurd rfl (hret r)
      | errorV m => exact absurd rfl (herr m)
      | _ => rfl

/-- **C6** (witness). -/
theorem c6_witness :
    Eval ptrEqNever 10 (.stmt (.forEachS "x" (some (.intLit 7)) [])) stEmpty =
      .ok (some (.errorV "Eval: 'for each' loop requires a list as iterable, got INTEGER"))
        stEmpty :=
  (c6_foreach_semantics ptrEqNever 9 "x" (some (.intLit 7)) [] stEmpty stEmpty (.intV 7)
      rfl).1 (fun _ h => Obj.noConfusion h) rfl

/-- Unfolding `Eval` at a `get item at index` expression. -/
theorem eval_getItem_unfold (ptrEq : Obj → Obj → Bool) (fuel : Nat)
    (lst idx : Option Expr) (st : St) :
    Eval ptrEq (fuel + 1) (.expr (.getItemAtIndex lst idx)) st =
      (match evalOExpr (Eval ptrEq fuel) lst st with
       | .ok lo st1 =>
         if isErrorO lo then .ok lo st1
         else
           (match lo with
            | some (.listV elems) =>
              (match evalOExpr (Eval ptrEq fuel) idx st1 with
               | .ok io st2 =>
                 if isErrorO io then .ok io st2
                 else
                   (match io with
                    | some (.intV i) =>
                      if i < 0 || i ≥ (elems.length : Int) then
                        .ok (some (.errorV ("Eval: Index out of bounds: " ++ toString i
                          ++ ", list length: " ++ toString elems.length))) st2
                      else .ok (some (elems.getD i.toNat .nullV)) st2
                    | some v =>
                      .ok (some (.errorV ("Eval: 'get item at index' index must be a number, got "
                        ++ objTypeStr v))) st2
                    | none => .panicked)
               | other => other)
            | some v =>
              .ok (some (.errorV ("Eval: 'get item at index' expected a list, got "
                ++ objTypeStr v))) st1
            | none => .panicked)
       | other => other) := rfl

/-- **C7**.  `get item at index i from xs`: the list side is evaluated
first and must be a `List` (else the type-mismatch error naming the
actual type); then the index side must be an `Integer` (else the
index-must-be-a-number error); an index outside `[0, length)` — negative
included — yields the `Index out of bounds` error naming both the index
and the list length; otherwise the result is exactly the stored list
element (shared, not copied). -/
theorem c7_get_item_at_index (ptrEq : Obj → Obj → Bool) (fuel : Nat)
    (lst idx : Option Expr) (st st1 : St) (lv : Obj)
    (hl : evalOExpr (Eval ptrEq fuel) lst st = .ok (some lv) st1) :
    (isError lv = false → (∀ elems, lv ≠ .listV elems) →
      Eval ptrEq (fuel + 1) (.expr (.getItemAtIndex lst idx)) st =
        .ok (some (.errorV ("Eval: 'get item at index' expected a list, got "
          ++ objTypeStr lv))) st1) ∧
    (∀ elems, lv = .listV elems →
      ∀ (iv : Obj) (st2 : St),
        evalOExpr (Eval ptrEq fuel) idx st1 = .ok (some iv) st2 →
        ((isError iv = false → (∀ i : Int, iv ≠ .intV i) →
          Eval ptrEq (fuel + 1) (.expr (.getItemAtIndex lst idx)) st =
            .ok (some (.errorV ("Eval: 'get item at index' index must be a number, got "
              ++ objTypeStr iv))) st2) ∧
        (∀ i : Int, iv = .intV i →
          ((i < 0 ∨ (elems.length : Int) ≤ i) →
            Eval ptrEq (fuel + 1) (.expr (.getItemAtIndex lst idx)) st =
              .ok (some (.errorV ("Eval: Index out of bounds: " ++ toString i
                ++ ", list length: " ++ toString elems.length))) st2) ∧
          (0 ≤ i → i < (elems.length : Int) →
            Eval ptrEq (fuel + 1) (.expr (.getItemAtIndex lst idx)) st =
              .ok (some (elems.getD i.toNat .nullV)) st2)))) := by
  constructor
  · intro herr hnl
    rw [eval_getItem_unfold, hl]
    cases lv with
    | listV elems => exact absurd rfl (hnl elems)
    | errorV m => simp [isError] at herr
    | _ => rfl
  · intro elems hlv iv st2 hidx
    subst hlv
    constructor
    · intro herr hni
      rw [eval_getItem_unfold, hl]
      dsimp only
      rw [hidx]
      cases iv with
      | intV i => exact absurd rfl (hni i)
      | errorV m => simp [isError] at herr
      | _ => rfl
    · intro i hiv
      subst hiv
      constructor
      · intro hout
        rw [eval_getItem_unfold, hl]
        dsimp only
        rw [hidx]
        simp only [isErrorO]
        split
        · next hff => simp at hff
        · split
          · rfl
          · next hcond =>
            simp only [Bool.or_eq_true, decide_eq_true_eq, not_or] at hcond
            omega
      · intro h0 hlen
        rw [eval_getItem_unfold, hl]
        dsimp only
        rw [hidx]
        simp only [isErrorO]
        split
        · next hff => simp at hff
        · split
          · next hcond =>
            simp only [Bool.or_eq_true, decide_eq_true_eq] at hcond
            omega
          · rfl

/-- **C7** (witness): `get item at index 5 from list(1, 2, 3)` is the
out-of-bounds error naming index 5 and length 3. -/
theorem c7_witness :
    Eval ptrEqNever 10 (.expr c7Example) stEmpty =
      .ok (some (.errorV "Eval: Index out of bounds: 5, list length: 3")) stEmpty :=
  (((c7_get_item_at_index ptrEqNever 9
      (some (.listLit [some (.intLit 1), some (.intLit 2), some (.intLit 3)]))
      (some (.intLit 5)) stEmpty stEmpty (.listV [.intV 1, .intV 2, .intV 3]) rfl).2
      [.intV 1, .intV 2, .intV 3] rfl (.intV 5) stEmpty rfl).2 5 rfl).1 (Or.inr (by decide))

/-- Unfolding `Eval` at a `convert to number` expression. -/
theorem eval_convertToNumber_unfold (ptrEq : Obj → Obj → Bool) (fuel : Nat)
    (inner : Option Expr) (st : St) :
    Eval ptrEq (fuel + 1) (.expr (.convertToNumber inner)) st =
      (match evalOExpr (Eval ptrEq fuel) inner st with
       | .ok v st1 =>
         if isErrorO v then .ok v st1
         else
           (match v with
            | some (.strV s) =>
              (match goParseFloat s with
               | none =>
                 .ok (some (.errorV ("Eval: Cannot convert string '" ++ s
                   ++ "' to number: " ++ goParseFloatErrMsg s))) st1
               | some f =>
                 if goContainsDot s then .ok (some (.floatV f)) st1
                 else .ok (some (.intV f.trunc)) st1)
            | some (.intV n) => .ok (some (.intV n)) st1
            | some (.floatV f) => .ok (some (.floatV f)) st1
            | some v' =>
              .ok (some (.errorV ("Eval: Cannot convert type " ++ objTypeStr v'
                ++ " to number"))) st1
            | none => .panicked)
       | other => other) := rfl

/-- **C8**.  `convert to number` passes integers and floats through
unchanged; a string is parsed with `ParseFloat` and the result re-narrows
to an integer (by truncation) iff the original text contains no decimal
point; a parse failure is the conversion error naming the offending text;
any other source type is the type-conversion error.  Composed with
`convert to string` (canonical `Inspect` rendering): `"3.14"` round-trips
to `"3.140000"` under six-decimal float formatting, while `"3"` becomes
an integer whose rendering is `"3"`. -/
theorem c8_convert_number_roundtrip (ptrEq : Obj → Obj → Bool) (fuel : Nat)
    (inner : Option Expr) (st st1 : St) (v : Obj)
    (h : evalOExpr (Eval ptrEq fuel) inner st = .ok (some v) st1) :
    (∀ n : Int, v = .intV n →
      Eval ptrEq (fuel + 1) (.expr (.convertToNumber inner)) st = .ok (some (.intV n)) st1) ∧
    (∀ x : F64, v = .floatV x →
      Eval ptrEq (fuel + 1) (.expr (.convertToNumber inner)) st = .ok (some (.floatV x)) st1) ∧
    (∀ s : String, v = .strV s →
      ((goParseFloat s = none →
        Eval ptrEq (fuel + 1) (.expr (.convertToNumber inner)) st =
          .ok (some (.errorV ("Eval: Cannot convert string '" ++ s ++ "' to number: "
            ++ goParseFloatErrMsg s))) st1) ∧
      (∀ q : F64, goParseFloat s = some q →
        (goContainsDot s = true →
          Eval ptrEq (fuel + 1) (.expr (.convertToNumber inner)) st =
            .ok (some (.floatV q)) st1) ∧
        (goContainsDot s = false →
          Eval ptrEq (fuel + 1) (.expr (.convertToNumber inner)) st =
            .ok (some (.intV q.trunc)) st1)))) ∧
    (isError v = false → (∀ n : Int, v ≠ .intV n) → (∀ x : F64, v ≠ .floatV x) →
      (∀ s : String, v ≠ .strV s) →
      Eval ptrEq (fuel + 1) (.expr (.convertToNumber inner)) st =
        .ok (some (.errorV ("Eval: Cannot convert type " ++ objTypeStr v
          ++ " to number"))) st1) ∧
    Eval ptrEqNever 10
      (.expr (.convertToString (some (.convertToNumber (some (.strLit "3.14")))))) stEmpty =
      .ok (some (.strV "3.140000")) stEmpty ∧
    Eval ptrEqNever 10 (.expr (.convertToNumber (some (.strLit "3")))) stEmpty =
      .ok (some (.intV 3)) stEmpty ∧
    inspect (.intV 3) = "3" := by
  refine ⟨?_, ?_, ?_, ?_, rfl, rfl, rfl⟩
  · intro n hv
    subst hv
    rw [eval_convertToNumber_unfold, h]
    simp [isErrorO]
  · intro x hv
    subst hv
    rw [eval_convertToNumber_unfold, h]
    simp [isErrorO]
  · intro s hv
    subst hv
    refine ⟨?_, ?_⟩
    · intro hpf
      rw [eval_convertToNumber_unfold, h]
      dsimp only
      rw [hpf]
      simp [isErrorO]
    · intro q hpf
      refine ⟨?_, ?_⟩ <;> intro hdot <;>
        (rw [eval_convertToNumber_unfold, h]; dsimp only; rw [hpf]; dsimp only; rw [hdot];
         simp [isErrorO])
  · intro herr hni hnf hns
    rw [eval_convertToNumber_unfold, h]
    cases v with
    | intV n => exact absurd rfl (hni n)
    | floatV x => exact absurd rfl (hnf x)
    | strV s => exact absurd rfl (hns s)
    | errorV m => simp [isError] at herr
    | _ => rfl

/-- **C8** (witness): `convert to number "3.14"` is the float 3.14
(an exact 314/100 in the model), since the text contains a dot. -/
theorem c8_witness :
    Eval ptrEqNever 10 (.expr (.convertToNumber (some (.strLit "3.14")))) stEmpty =
      .ok (some (.floatV ⟨314, 100⟩)) stEmpty :=
  ((((c8_convert_number_roundtrip ptrEqNever 9 (some (.strLit "3.14")) stEmpty stEmpty
      (.strV "3.14") rfl).2.2.1 "3.14" rfl).2 ⟨314, 100⟩ (by decide)).1 (by decide))

/-- A digit scan fails on any character list containing `'.'` (a dot is
not a digit in any base up to 16). -/
theorem goDigitsBase_dot (base : Nat) :
    ∀ (acc count : Nat) (cs : List Char), '.' ∈ cs → goDigitsBase base acc count cs = none := by
  intro acc count cs
  induction cs generalizing acc count with
  | nil => intro h; cases h
  | cons c rest ih =>
    intro h
    unfold goDigitsBase
    rcases List.mem_cons.mp h with hc | hmem
    · rw [← hc]
      rfl
    · cases hcd : charDigitVal c with
      | none => rfl
      | some d =>
        dsimp only
        split
        · exact ih _ _ hmem
        · rfl

/-- The sign split never removes a dot. -/
theorem dot_mem_goSignSplit (cs : List Char) (h : '.' ∈ cs) : '.' ∈ (goSignSplit cs).2 := by
  unfold goSignSplit
  split <;> simp_all

/-- The base-prefix split never removes a dot. -/
theorem dot_mem_goBaseSplit (cs : List Char) (h : '.' ∈ cs) : '.' ∈ (goBaseSplit cs).2 := by
  unfold goBaseSplit
  split <;> simp_all

/-- `strconv.ParseInt(s, 0, 64)` fails on every string containing a
decimal point. -/
theorem goParseInt_contains_dot (s : String) (h : '.' ∈ s.toList) : goParseInt s = none := by
  unfold goParseInt
  dsimp only
  rw [goDigitsBase_dot _ 0 0 _ (dot_mem_goBaseSplit _ (dot_mem_goSignSplit _ h))]

/-- `parseFloatLiteral` is registered for no token type. -/
theorem prefixParseFns_ne_floatLit (t : String) :
    prefixParseFns t ≠ some PrefixFn.parseFloatLiteral := by
  unfold prefixParseFns
  split <;> simp

/-- `parseIntegerLiteral` never yields a `FloatLiteral`. -/
theorem parseIntegerLiteral_noFloat (p : PSt) :
    oexprNoFloat (parseIntegerLiteral p).1 = true := by
  unfold parseIntegerLiteral
  split <;> rfl

/-- `parseIsDefinedExpression` never yields a `FloatLiteral`. -/
theorem parseIsDefinedExpression_noFloat (p : PSt) :
    oexprNoFloat (parseIsDefinedExpression p).1 = true := by
  unfold parseIsDefinedExpression
  split <;> rfl

/-- `parseInputStatement` never yields a `FloatLiteral`. -/
theorem parseInputStatement_noFloat (p : PSt) :
    ostmtNoFloat (parseInputStatement p).1 = true := by
  unfold parseInputStatement
  split <;> rfl

/-- `stmtsNoFloat` distributes over append. -/
theorem stmtsNoFloat_append (xs ys : List Stmt) :
    stmtsNoFloat (xs ++ ys) = (stmtsNoFloat xs && stmtsNoFloat ys) := by
  induction xs with
  | nil => simp [stmtsNoFloat]
  | cons s rest ih => simp [stmtsNoFloat, ih, Bool.and_assoc]

/-- `oexprsNoFloat` distributes over append. -/
theorem oexprsNoFloat_append (xs ys : List (Option Expr)) :
    oexprsNoFloat (xs ++ ys) = (oexprsNoFloat xs && oexprsNoFloat ys) := by
  induction xs with
  | nil => simp [oexprsNoFloat]
  | cons e rest ih => simp [oexprsNoFloat, ih, Bool.and_assoc]

/-- `elifsNoFloat` distributes over append. -/
theorem elifsNoFloat_append (xs ys : List (Option Expr × List Stmt)) :
    elifsNoFloat (xs ++ ys) = (elifsNoFloat xs && elifsNoFloat ys) := by
  induction xs with
  | nil => simp [elifsNoFloat]
  | cons hd rest ih =>
    obtain ⟨c, b⟩ := hd
    simp [elifsNoFloat, ih, Bool.and_assoc]

/-- No parse function of the parser ever constructs a `FloatLiteral`
node: simultaneous induction on the step budget over the whole mutual
family of parse functions.  (`runPrefixFn` is conditioned on its label not
being the unregistered `parseFloatLiteral`, the only constructor of
`FloatLiteral` in the source.) -/
theorem parser_never_builds_float_literals (fuel : Nat) :
    (∀ (prec : Nat) (p : PSt), oexprNoFloat (parseExpression fuel prec p).1 = true) ∧
    (∀ fn : PrefixFn, fn ≠ .parseFloatLiteral →
      ∀ p : PSt, oexprNoFloat (runPrefixFn fuel fn p).1 = true) ∧
    (∀ p : PSt, ostmtNoFloat (parseStatement fuel p).1 = true) ∧
    (∀ (fn : StmtFn) (p : PSt), ostmtNoFloat (runStmtFn fuel fn p).1 = true) ∧
    (∀ p : PSt, ostmtNoFloat (parseExpressionStatement fuel p).1 = true) ∧
    (∀ p : PSt, ostmtNoFloat (parseLetStatement fuel p).1 = true) ∧
    (∀ p : PSt, ostmtNoFloat (parseReturnStatement fuel p).1 = true) ∧
    (∀ p : PSt, ostmtNoFloat (parseIfStatement fuel p).1 = true) ∧
    (∀ (acc : List (Option Expr × List Stmt)) (p : PSt), elifsNoFloat acc = true →
      ∀ l, (parseElseIfs fuel acc p).1 = some l → elifsNoFloat l = true) ∧
    (∀ p : PSt, stmtsNoFloat (parseBlockStatement fuel p).1 = true) ∧
    (∀ (acc : List Stmt) (p : PSt), stmtsNoFloat acc = true →
      stmtsNoFloat (parseBlockLoop fuel acc p).1 = true) ∧
    (∀ p : PSt, ostmtNoFloat (parseWhileStatement fuel p).1 = true) ∧
    (∀ p : PSt, ostmtNoFloat (parseForEachStatement fuel p).1 = true) ∧
    (∀ p : PSt, oexprNoFloat (parseFunctionStatement fuel p).1 = true) ∧
    (∀ p : PSt, ostmtNoFloat (parsePrintStatement fuel p).1 = true) ∧
    (∀ p : PSt, oexprNoFloat (parseListLiteral fuel p).1 = true) ∧
    (∀ (acc : List (Option Expr)) (p : PSt), oexprsNoFloat acc = true →
      oexprNoFloat (listElemsLoop fuel acc p).1 = true) ∧
    (∀ p : PSt, oexprNoFloat (parseGetItemAtIndexPrefix fuel p).1 = true) ∧
    (∀ p : PSt, oexprNoFloat (parseConvertToNumberExpression fuel p).1 = true) ∧
    (∀ p : PSt, oexprNoFloat (parseConvertToStringExpression fuel p).1 = true) ∧
    (∀ p : PSt, ostmtNoFloat (parseExitStatement fuel p).1 = true) ∧
    (∀ (acc : List Stmt) (p : PSt), stmtsNoFloat acc = true →
      stmtsNoFloat (parseProgramLoop fuel acc p).1 = true) := by
  induction fuel with
  | zero =>
    refine ⟨fun prec p => rfl, fun fn _ p => rfl, fun p => rfl, fun fn p => rfl,
      fun p => rfl, fun p => rfl, fun p => rfl, fun p => rfl,
      fun acc p hacc l hl => Option.noConfusion hl, fun p => rfl,
      fun acc p h => h, fun p => rfl, fun p => rfl, fun p => rfl, fun p => rfl,
      fun p => rfl, fun acc p h => h, fun p => rfl, fun p => rfl, fun p => rfl,
      fun p => rfl, fun acc p h => h⟩
  | succ f ih =>
    obtain ⟨ihPE, ihRP, ihPS, ihRS, ihES, ihLet, ihRet, ihIf, ihElifs, ihBlock,
      ihBLoop, ihWhile, ihFE, ihFun, ihPrint, ihList, ihElems, ihGII, ihCTN,
      ihCTS, ihExit, ihProg⟩ := ih
    refine ⟨?_, ?_, ?_, ?_, ?_, ?_, ?_, ?_, ?_, ?_, ?_, ?_, ?_, ?_, ?_, ?_,
      ?_, ?_, ?_, ?_, ?_, ?_⟩
    · intro prec p
      unfold parseExpression
      split
      · rfl
      · next fn heq =>
        exact ihRP fn (fun hf => prefixParseFns_ne_floatLit _ (hf ▸ heq)) p
    · intro fn hne p
      cases fn with
      | parseIdentifier => rfl
      | parseIntegerLiteral => exact parseIntegerLiteral_noFloat p
      | parseStringLiteral => rfl
      | parseBoolean => rfl
      | parseFunctionStatement => exact ihFun p
      | parseListLiteral => exact ihList p
      | parseGetItemAtIndexPrefix => exact ihGII p
      | parseIsDefinedExpression => exact parseIsDefinedExpression_noFloat p
      | parseConvertToNumberExpression => exact ihCTN p
      | parseConvertToStringExpression => exact ihCTS p
      | parseFloatLiteral => exact absurd rfl hne
    · intro p
      unfold parseStatement
      split
      · next fn _ => exact ihRS fn p
      · exact ihES p
    · intro fn p
      cases fn with
      | parseLetStatement => exact ihLet p
      | parseIfStatement => exact ihIf p
      | parsePrintStatement => exact ihPrint p
      | parseWhileStatement => exact ihWhile p
      | parseForEachStatement => exact ihFE p
      | parseReturnStatement => exact ihRet p
      | parseExitStatement => exact ihExit p
      | parseInputStatement => exact parseInputStatement_noFloat p
    · intro p
      unfold parseExpressionStatement
      dsimp only
      simp [ostmtNoFloat, stmtNoFloat, ihPE]
    · intro p
      unfold parseLetStatement
      split
      · rfl
      · split
        · rfl
        · simp [ostmtNoFloat, stmtNoFloat, ihPE]
    · intro p
      unfold parseReturnStatement
      dsimp only
      simp [ostmtNoFloat, stmtNoFloat, ihPE]
    · intro p
      unfold parseIfStatement
      dsimp only
      split
      · rfl
      · split
        · rfl
        · next elifs p5 heq =>
          split
          · rfl
          · split <;>
              (simp only [ostmtNoFloat, stmtNoFloat, oblockNoFloat, ihPE, ihBlock,
                 Bool.true_and, Bool.and_true];
               exact ihElifs [] _ rfl elifs (by rw [heq]))
    · intro acc p hacc l hl
      unfold parseElseIfs at hl
      dsimp only at hl
      split at hl
      · split at hl
        · exact Option.noConfusion hl
        · refine ihElifs _ _ ?_ l hl
          simp [elifsNoFloat_append, elifsNoFloat, hacc, ihPE, ihBlock]
      · injection hl with h
        exact h ▸ hacc
    · intro p
      unfold parseBlockStatement
      exact ihBLoop [] _ rfl
    · intro acc p hacc
      unfold parseBlockLoop
      dsimp only
      split
      · exact hacc
      · split
        · next st heq =>
          refine ihBLoop _ _ ?_
          have hst := ihPS p
          rw [heq] at hst
          simp only [ostmtNoFloat] at hst
          simp [stmtsNoFloat_append, stmtsNoFloat, hacc, hst]
        · exact ihBLoop _ _ hacc
    · intro p
      unfold parseWhileStatement
      dsimp only
      split
      · rfl
      · split
        · rfl
        · simp [ostmtNoFloat, stmtNoFloat, ihPE, ihBlock]
    · intro p
      unfold parseForEachStatement
      dsimp only
      split
      · rfl
      · split
        · rfl
        · split
          · rfl
          · split
            · rfl
            · simp [ostmtNoFloat, stmtNoFloat, ihPE, ihBlock]
    · intro p
      unfold parseFunctionStatement
      dsimp only
      repeat' split
      all_goals
        first
          | rfl
          | simp [oexprNoFloat, exprNoFloat, ihBlock]
    · intro p
      unfold parsePrintStatement
      dsimp only
      simp [ostmtNoFloat, stmtNoFloat, ihPE]
    · intro p
      unfold parseListLiteral
      dsimp only
      split
      · rfl
      · refine ihElems _ _ ?_
        simp [oexprsNoFloat, ihPE]
    · intro acc p hacc
      unfold listElemsLoop
      dsimp only
      split
      · refine ihElems _ _ ?_
        simp [oexprsNoFloat_append, oexprsNoFloat, hacc, ihPE]
      · simpa [oexprNoFloat, exprNoFloat] using hacc
    · intro p
      unfold parseGetItemAtIndexPrefix
      dsimp only
      split
      · rfl
      · simp [oexprNoFloat, exprNoFloat, ihPE]
    · intro p
      unfold parseConvertToNumberExpression
      dsimp only
      simp [oexprNoFloat, exprNoFloat, ihPE]
    · intro p
      unfold parseConvertToStringExpression
      dsimp only
      simp [oexprNoFloat, exprNoFloat, ihPE]
    · intro p
      unfold parseExitStatement
      dsimp only
      split
      · simp [ostmtNoFloat, stmtNoFloat, ihPE]
      · rfl
    · intro acc p hacc
      unfold parseProgramLoop
      dsimp only
      split
      · exact hacc
      · split
        · next st heq =>
          refine ihProg _ _ ?_
          have hst := ihPS p
          rw [heq] at hst
          simp only [ostmtNoFloat] at hst
          simp [stmtsNoFloat_append, stmtsNoFloat, hacc, hst]
        · exact ihProg _ _ hacc

/-- **C10**.  The parser registers `parseIntegerLiteral` as the prefix
function for `NUMBER` tokens and registers `parseFloatLiteral` for no
token type at all, so every numeric literal is parsed with
`strconv.ParseInt`; a literal text containing a decimal point (e.g.
`3.14`, whose maximal-munch `NUMBER` token carries the full text) makes
that parse fail, producing the `could not parse ... as integer`
diagnostic and a nil expression instead of a `FloatLiteral` node; indeed
(last conjunct) no program that `ParseProgram` produces from any token
stream contains a `FloatLiteral` anywhere, so no source program can
construct a float value through a literal. -/
theorem c10_number_literals_parse_as_integers :
    prefixParseFns "NUMBER" = some PrefixFn.parseIntegerLiteral ∧
    (∀ t, prefixParseFns t ≠ some PrefixFn.parseFloatLiteral) ∧
    (∀ p : PSt, '.' ∈ p.curToken.literal.toList →
        parseIntegerLiteral p =
          (none, { p with errors := p.errors ++
            ["could not parse " ++ goQuote p.curToken.literal ++ " as integer at line "
              ++ toString p.curToken.line ++ ", column " ++ toString p.curToken.col] })) ∧
    parseIntegerLiteral c10St =
      (none, { c10St with errors :=
        ["could not parse \"3.14\" as integer at line 1, column 1"] }) ∧
    (∀ (fuel : Nat) (toks : List Token),
      stmtsNoFloat (ParseProgram fuel toks).1 = true) := by
  refine ⟨rfl, prefixParseFns_ne_floatLit, ?_, rfl, ?_⟩
  · intro p h
    unfold parseIntegerLiteral
    rw [goParseInt_contains_dot _ h]
  · intro fuel toks
    exact (parser_never_builds_float_literals fuel).2.2.2.2.2.2.2.2.2.2.2.2.2.2.2.2.2.2.2.2.2
      [] (parserNew toks) rfl

/-- **C10** (witness): the `NUMBER` token `3.14` yields a nil expression
and exactly the integer-parse diagnostic. -/
theorem c10_witness :
    parseIntegerLiteral c10St =
      (none, { c10St with errors :=
        ["could not parse \"3.14\" as integer at line 1, column 1"] }) :=
  c10_number_literals_parse_as_integers.2.2.1 c10St (by decide)
